import Mathlib

/-!
Shallow embedding of the dsp_ts_redis native core (src/src/native) for
specification checking.

The embedding follows the C++ sources:
* `CircularBufferArray` (utils/CircularBufferArray.cc) — fixed-capacity ring
  buffer.  The raw `T*` storage is modelled as a total function `Nat → α`
  (the C++ array is only ever indexed below `capacity`).
* `SlidingWindowFilter` (utils/SlidingWindowFilter.cc) — ring buffer plus a
  policy state; policies from core/Policies.h.
* Derived filters (core/WampFilter.h, core/SscFilter.h,
  core/WaveformLengthFilter.h).
* `MovingAverageStage` (adapters/MovingAverageStage.h) — batch processing and
  state (de)serialization, and `DspPipeline::LoadState` (DspPipeline.cc).

Numeric samples are modelled as `ℚ` (the C++ uses `float`/`double`; the spec's
claims are stated with explicit floating-point tolerances, and the exact-field
model satisfies a tolerance bound whenever the underlying identity is exact).
`std::sqrt` is irrational-valued, so results that the C++ passes through
`std::sqrt` are exposed as the radicand together with quantification over an
arbitrary square-root function where needed.
-/

/-- Ring buffer state, from `utils/CircularBufferArray.cc`.
`buffer` models the owned `T*` array (reads beyond `capacity` never occur in
the source). -/
structure CircularBufferArray (α : Type) where
  buffer : Nat → α
  head : Nat
  tail : Nat
  capacity : Nat
  count : Nat

/-- Constructor: `capacity = std::max(size, 1)`, value-initialized storage
(`new T[capacity]()`), indices and count zero. `init` is the value-initialized
element (0 for numbers, false for bool). -/
def CircularBufferArray.mkBuf (size : Nat) (init : α) : CircularBufferArray α :=
  { buffer := fun _ => init, head := 0, tail := 0, capacity := max size 1, count := 0 }

/-- `isFull`: `count == capacity`. -/
def CircularBufferArray.isFull (b : CircularBufferArray α) : Bool :=
  b.count == b.capacity

/-- `isEmpty`: `count == 0`. -/
def CircularBufferArray.isEmpty (b : CircularBufferArray α) : Bool :=
  b.count == 0

/-- `getCount`. -/
def CircularBufferArray.getCount (b : CircularBufferArray α) : Nat := b.count

/-- `getCapacity`. -/
def CircularBufferArray.getCapacity (b : CircularBufferArray α) : Nat := b.capacity

/-- `peek` returns `buffer[tail]`, the oldest element.  The C++ throws on an
empty buffer; every call site in the embedded code guards with `isFull`, so
the model returns the (stale) cell contents and the empty case is never
reached under the buffer invariant. -/
def CircularBufferArray.peek (b : CircularBufferArray α) : α :=
  b.buffer b.tail

/-- `pushOverwrite`: if full, advance `tail`; write the item at `head`;
advance `head`; increment `count` unless saturated. -/
def CircularBufferArray.pushOverwrite (b : CircularBufferArray α) (item : α) :
    CircularBufferArray α :=
  { buffer := fun j => if j = b.head then item else b.buffer j
    head := (b.head + 1) % b.capacity
    tail := if b.count = b.capacity then (b.tail + 1) % b.capacity else b.tail
    capacity := b.capacity
    count := if b.count < b.capacity then b.count + 1 else b.count }

/-- `clear`: zero the indices and count, leave the storage stale. -/
def CircularBufferArray.clear (b : CircularBufferArray α) : CircularBufferArray α :=
  { b with head := 0, tail := 0, count := 0 }

/-- `toVector`: the live contents oldest→newest,
`result[i] = buffer[(tail + i) % capacity]` for `i < count`. -/
def CircularBufferArray.toVector (b : CircularBufferArray α) : List α :=
  (List.range b.count).map fun i => b.buffer ((b.tail + i) % b.capacity)

/-- `fromVector`: `clear()` then `pushOverwrite` each element in order. -/
def CircularBufferArray.fromVector (b : CircularBufferArray α) (data : List α) :
    CircularBufferArray α :=
  data.foldl CircularBufferArray.pushOverwrite b.clear

/-- Representation invariant of the ring buffer: positive capacity, count
bounded by capacity, tail in range, and `head` sitting `count` slots past
`tail` (mod capacity).  It holds for every buffer the source constructs. -/
def CircularBufferArray.BufInv (b : CircularBufferArray α) : Prop :=
  1 ≤ b.capacity ∧ b.count ≤ b.capacity ∧ b.tail < b.capacity ∧
    b.head = (b.tail + b.count) % b.capacity

instance (b : CircularBufferArray α) : Decidable b.BufInv := by
  unfold CircularBufferArray.BufInv; infer_instance

/-- The last `n` elements of a list (the ring window keeps exactly these). -/
def listLastN (n : Nat) (l : List α) : List α := l.drop (l.length - n)

/-- `utils/SlidingWindowFilter.h`: one ring buffer plus one policy state.
The C++ policy object is its mutable state; policy methods are passed
explicitly (`onAdd`/`onRemove`), mirroring the template's static dispatch. -/
structure SlidingWindowFilter (α : Type) (σ : Type) where
  m_buffer : CircularBufferArray α
  m_policy : σ

/-- `SlidingWindowFilter::addSample`, state transition: if the buffer is full,
`peek` the value about to be evicted and `onRemove` it; then `pushOverwrite`
the new value; then `onAdd` it.  The returned result is `getResult` of the
post-state and is read off by the per-policy wrappers. -/
def SlidingWindowFilter.addSampleState (onAdd onRemove : σ → α → σ)
    (f : SlidingWindowFilter α σ) (v : α) : SlidingWindowFilter α σ :=
  let pol := if f.m_buffer.isFull then onRemove f.m_policy f.m_buffer.peek else f.m_policy
  { m_buffer := f.m_buffer.pushOverwrite v, m_policy := onAdd pol v }

/-- `SlidingWindowFilter::clear`: clear the buffer, reset the policy state. -/
def SlidingWindowFilter.clear (clearState : σ) (f : SlidingWindowFilter α σ) :
    SlidingWindowFilter α σ :=
  { m_buffer := f.m_buffer.clear, m_policy := clearState }

/-- `SlidingWindowFilter::getState`: buffer contents plus policy state. -/
def SlidingWindowFilter.getState (f : SlidingWindowFilter α σ) : List α × σ :=
  (f.m_buffer.toVector, f.m_policy)

/-- `SlidingWindowFilter::setState`: restore buffer via `fromVector`, then set
the policy state. -/
def SlidingWindowFilter.setState (f : SlidingWindowFilter α σ)
    (bufferData : List α) (policyState : σ) : SlidingWindowFilter α σ :=
  { m_buffer := f.m_buffer.fromVector bufferData, m_policy := policyState }

/-- Engine invariant: the buffer invariant holds and the policy state equals
the exact recomputation from the live window contents.  This is the spec's
"the policy never sees more or fewer additions than the window's distinct
live contents". -/
def SlidingWindowFilter.Inv (recompute : List α → σ)
    (f : SlidingWindowFilter α σ) : Prop :=
  f.m_buffer.BufInv ∧ f.m_policy = recompute f.m_buffer.toVector

/-- Observable-state equality of two engines: same invariant, capacity, live
contents and policy state.  Preserved by `addSampleState`; used to show that a
restored filter behaves like the original. -/
def SlidingWindowFilter.SimEq (f g : SlidingWindowFilter α σ) : Prop :=
  f.m_buffer.BufInv ∧ g.m_buffer.BufInv ∧
  f.m_buffer.capacity = g.m_buffer.capacity ∧
  f.m_buffer.toVector = g.m_buffer.toVector ∧
  f.m_policy = g.m_policy

/-! ## Policies (core/Policies.h)

Each C++ policy struct is embedded as its state type plus `onAdd`/`onRemove`/
`getResult` functions, and a `recompute` function giving the exact batch
recomputation of the state from a window's contents. -/

/-- `MeanPolicy::onAdd`: `m_sum += val`. -/
def MeanPolicy.onAdd (m_sum val : ℚ) : ℚ := m_sum + val

/-- `MeanPolicy::onRemove`: `m_sum -= val`. -/
def MeanPolicy.onRemove (m_sum val : ℚ) : ℚ := m_sum - val

/-- `MeanPolicy::getResult`: 0 when `count == 0`, else `m_sum / count`. -/
def MeanPolicy.getResult (m_sum : ℚ) (count : Nat) : ℚ :=
  if count = 0 then 0 else m_sum / count

/-- Exact running-sum recomputation from window contents. -/
def MeanPolicy.recompute (l : List ℚ) : ℚ := l.sum

/-- `RmsPolicy::onAdd`: `m_sum_sq += val * val`. -/
def RmsPolicy.onAdd (m_sum_sq val : ℚ) : ℚ := m_sum_sq + val * val

/-- `RmsPolicy::onRemove`: `m_sum_sq -= val * val`. -/
def RmsPolicy.onRemove (m_sum_sq val : ℚ) : ℚ := m_sum_sq - val * val

/-- `RmsPolicy::getResult`: 0 when `count == 0`, else
`sqrt(max(0, m_sum_sq / count))`.  `std::sqrt` is irrational-valued, so the
model abstracts it as an arbitrary function `sqrtFn` applied to the exact
clamped mean square. -/
def RmsPolicy.getResult (sqrtFn : ℚ → ℚ) (m_sum_sq : ℚ) (count : Nat) : ℚ :=
  if count = 0 then 0 else sqrtFn (max 0 (m_sum_sq / count))

/-- Exact running sum-of-squares recomputation from window contents. -/
def RmsPolicy.recompute (l : List ℚ) : ℚ := (l.map fun v => v * v).sum

/-- `SumPolicy::onAdd`: `m_sum += value`. -/
def SumPolicy.onAdd (m_sum value : ℚ) : ℚ := m_sum + value

/-- `SumPolicy::onRemove`: `m_sum -= value`. -/
def SumPolicy.onRemove (m_sum value : ℚ) : ℚ := m_sum - value

/-- `SumPolicy::getResult`: ignores `count` and returns the running sum. -/
def SumPolicy.getResult (m_sum : ℚ) (count : Nat) : ℚ := m_sum

/-- Exact running-sum recomputation from window contents. -/
def SumPolicy.recompute (l : List ℚ) : ℚ := l.sum

/-- `CounterPolicy::onAdd`: increment on `true`. -/
def CounterPolicy.onAdd (m_count : Nat) (value : Bool) : Nat :=
  if value then m_count + 1 else m_count

/-- `CounterPolicy::onRemove`: decrement on `true`.  The C++ decrements an
unsigned `size_t`; `Nat` subtraction truncates where C++ would wrap, and the
verified invariant shows the decrement only ever happens with a positive
count, where the two agree. -/
def CounterPolicy.onRemove (m_count : Nat) (value : Bool) : Nat :=
  if value then m_count - 1 else m_count

/-- `CounterPolicy::getResult`: ignores `count`, returns `m_count` cast to the
numeric sample type. -/
def CounterPolicy.getResult (m_count : Nat) (count : Nat) : ℚ := (m_count : ℚ)

/-- Exact true-count recomputation from window contents. -/
def CounterPolicy.recompute (l : List Bool) : Nat := l.count true

/-- `MeanAbsoluteValuePolicy::onAdd`: `m_sum_abs += std::abs(val)`. -/
def MeanAbsoluteValuePolicy.onAdd (m_sum_abs val : ℚ) : ℚ := m_sum_abs + |val|

/-- `MeanAbsoluteValuePolicy::onRemove`: `m_sum_abs -= std::abs(val)`. -/
def MeanAbsoluteValuePolicy.onRemove (m_sum_abs val : ℚ) : ℚ := m_sum_abs - |val|

/-- `MeanAbsoluteValuePolicy::getResult`: 0 when `count == 0`, else
`m_sum_abs / count`. -/
def MeanAbsoluteValuePolicy.getResult (m_sum_abs : ℚ) (count : Nat) : ℚ :=
  if count = 0 then 0 else m_sum_abs / count

/-- Exact running sum-of-absolute-values recomputation. -/
def MeanAbsoluteValuePolicy.recompute (l : List ℚ) : ℚ := (l.map fun v => |v|).sum

/-- `VariancePolicy` state: `(m_sum, m_sum_sq)`. `onAdd` adds to both. -/
def VariancePolicy.onAdd (s : ℚ × ℚ) (val : ℚ) : ℚ × ℚ :=
  (s.1 + val, s.2 + val * val)

/-- `VariancePolicy::onRemove`. -/
def VariancePolicy.onRemove (s : ℚ × ℚ) (val : ℚ) : ℚ × ℚ :=
  (s.1 - val, s.2 - val * val)

/-- `VariancePolicy::getResult`: 0 when `count == 0`, else
`max(0, m_sum_sq/count - mean*mean)` with `mean = m_sum/count`. -/
def VariancePolicy.getResult (s : ℚ × ℚ) (count : Nat) : ℚ :=
  if count = 0 then 0
  else max 0 (s.2 / count - (s.1 / count) * (s.1 / count))

/-- Exact (sum, sum-of-squares) recomputation. -/
def VariancePolicy.recompute (l : List ℚ) : ℚ × ℚ :=
  (l.sum, (l.map fun v => v * v).sum)

/-- `ZScorePolicy::getResult(currentValue, count)`: 0 when `count == 0`;
else compute mean, clamped variance, `stddev = sqrt(variance)` (abstracted as
`sqrtFn`), return 0 when `stddev < epsilon`, else `(currentValue - mean) /
stddev`. -/
def ZScorePolicy.getResult (sqrtFn : ℚ → ℚ) (m_sum m_sum_sq m_epsilon currentValue : ℚ)
    (count : Nat) : ℚ :=
  if count = 0 then 0
  else
    let mean := m_sum / count
    let mean_sq := m_sum_sq / count
    let variance := max 0 (mean_sq - mean * mean)
    let stddev := sqrtFn variance
    if stddev < m_epsilon then 0 else (currentValue - mean) / stddev


/-! ## Derived feature filters (core/WampFilter.h, core/WaveformLengthFilter.h,
core/SscFilter.h) -/

/-- `core/WampFilter.h` state: engine over booleans with `CounterPolicy`
(state: `m_count`), plus threshold and one-sample lookback. -/
structure WampFilter where
  m_filter : SlidingWindowFilter Bool Nat
  m_threshold : ℚ
  m_previous_sample : ℚ
  m_is_initialized : Bool

/-- `WampFilter` constructor. -/
def WampFilter.mkFilter (window_size : Nat) (threshold : ℚ) : WampFilter :=
  { m_filter := ⟨CircularBufferArray.mkBuf window_size false, 0⟩
    m_threshold := threshold
    m_previous_sample := 0
    m_is_initialized := false }

/-- `WampFilter::addSample`: `did_exceed = initialized && |new - prev| >
threshold`; update the lookback; feed the boolean to the counter engine and
return the count cast to the sample type. -/
def WampFilter.addSample (f : WampFilter) (newValue : ℚ) : ℚ × WampFilter :=
  let did_exceed := f.m_is_initialized && decide (|newValue - f.m_previous_sample| > f.m_threshold)
  let engine := f.m_filter.addSampleState CounterPolicy.onAdd CounterPolicy.onRemove did_exceed
  (CounterPolicy.getResult engine.m_policy engine.m_buffer.getCount,
   { f with m_filter := engine, m_previous_sample := newValue, m_is_initialized := true })

/-- `WampFilter::getState`: `{engine state, previous sample}`.  Note: the
initialization flag is NOT part of the exported state. -/
def WampFilter.getState (f : WampFilter) : (List Bool × Nat) × ℚ :=
  (f.m_filter.getState, f.m_previous_sample)

/-- `WampFilter::setState`: restore engine and lookback;
`m_is_initialized = true` unconditionally. -/
def WampFilter.setState (f : WampFilter) (buffer : List Bool) (count : Nat)
    (prevSample : ℚ) : WampFilter :=
  { f with
      m_filter := f.m_filter.setState buffer count
      m_previous_sample := prevSample
      m_is_initialized := true }

/-- Feed a sample sequence, collecting the returned values. -/
def WampFilter.run (f : WampFilter) : List ℚ → List ℚ × WampFilter
  | [] => ([], f)
  | v :: rest =>
    let step := f.addSample v
    let next := step.2.run rest
    (step.1 :: next.1, next.2)

/-- `core/WaveformLengthFilter.h` state: engine over samples with `SumPolicy`
(state: `m_sum`), plus one-sample lookback. -/
structure WaveformLengthFilter where
  m_filter : SlidingWindowFilter ℚ ℚ
  m_previous_sample : ℚ
  m_is_initialized : Bool

/-- `WaveformLengthFilter` constructor. -/
def WaveformLengthFilter.mkFilter (window_size : Nat) : WaveformLengthFilter :=
  { m_filter := ⟨CircularBufferArray.mkBuf window_size 0, 0⟩
    m_previous_sample := 0
    m_is_initialized := false }

/-- `WaveformLengthFilter::addSample`: feed `|new - prev|` (0 before
initialized) to the sum engine. -/
def WaveformLengthFilter.addSample (f : WaveformLengthFilter) (newValue : ℚ) :
    ℚ × WaveformLengthFilter :=
  let diff := if f.m_is_initialized then |newValue - f.m_previous_sample| else 0
  let engine := f.m_filter.addSampleState SumPolicy.onAdd SumPolicy.onRemove diff
  (SumPolicy.getResult engine.m_policy engine.m_buffer.getCount,
   { f with m_filter := engine, m_previous_sample := newValue, m_is_initialized := true })

/-- `WaveformLengthFilter::getState`: `{engine state, previous sample}`; the
initialization flag is NOT exported. -/
def WaveformLengthFilter.getState (f : WaveformLengthFilter) : (List ℚ × ℚ) × ℚ :=
  (f.m_filter.getState, f.m_previous_sample)

/-- `WaveformLengthFilter::setState`; the source comment reads
"Assume if state is set, we are init'd". -/
def WaveformLengthFilter.setState (f : WaveformLengthFilter) (buffer : List ℚ)
    (runningSum : ℚ) (prevSample : ℚ) : WaveformLengthFilter :=
  { f with
      m_filter := f.m_filter.setState buffer runningSum
      m_previous_sample := prevSample
      m_is_initialized := true }

/-- Feed a sample sequence, collecting the returned values. -/
def WaveformLengthFilter.run (f : WaveformLengthFilter) : List ℚ → List ℚ × WaveformLengthFilter
  | [] => ([], f)
  | v :: rest =>
    let step := f.addSample v
    let next := step.2.run rest
    (step.1 :: next.1, next.2)

/-- `core/SscFilter.h` extra lag state exported by `getState`. -/
structure SscFilterState where
  sample_minus_1 : ℚ
  sample_minus_2 : ℚ
  init_count : Nat

/-- `core/SscFilter.h` state: counter engine plus two lags and an init
counter. -/
structure SscFilter where
  m_filter : SlidingWindowFilter Bool Nat
  m_threshold : ℚ
  m_sample_minus_1 : ℚ
  m_sample_minus_2 : ℚ
  m_init_count : Nat

/-- `SscFilter` constructor. -/
def SscFilter.mkFilter (window_size : Nat) (threshold : ℚ) : SscFilter :=
  { m_filter := ⟨CircularBufferArray.mkBuf window_size false, 0⟩
    m_threshold := threshold
    m_sample_minus_1 := 0
    m_sample_minus_2 := 0
    m_init_count := 0 }

/-- `SscFilter::addSample`.  When `m_init_count < 2` the source seeds the lag
fields, but the unconditional lag shift that follows overwrites
`m_sample_minus_2` with the (possibly just-seeded) `m_sample_minus_1`; the
model reproduces that sequential behaviour exactly. -/
def SscFilter.addSample (f : SscFilter) (sample_n : ℚ) : ℚ × SscFilter :=
  let did_change :=
    if 2 ≤ f.m_init_count then
      decide ((f.m_sample_minus_1 - f.m_sample_minus_2) * (f.m_sample_minus_1 - sample_n)
        > f.m_threshold)
    else false
  let seeded_minus_1 := if f.m_init_count = 1 then sample_n else f.m_sample_minus_1
  let engine := f.m_filter.addSampleState CounterPolicy.onAdd CounterPolicy.onRemove did_change
  (CounterPolicy.getResult engine.m_policy engine.m_buffer.getCount,
   { f with
       m_filter := engine
       m_sample_minus_2 := seeded_minus_1
       m_sample_minus_1 := sample_n
       m_init_count := if 2 ≤ f.m_init_count then f.m_init_count else f.m_init_count + 1 })

/-- `SscFilter::getState`: engine state plus both lags AND the init counter. -/
def SscFilter.getState (f : SscFilter) : (List Bool × Nat) × SscFilterState :=
  (f.m_filter.getState, ⟨f.m_sample_minus_1, f.m_sample_minus_2, f.m_init_count⟩)

/-- `SscFilter::setState`: restores the engine, both lags and the init
counter. -/
def SscFilter.setState (f : SscFilter) (buffer : List Bool) (count : Nat)
    (filterState : SscFilterState) : SscFilter :=
  { f with
      m_filter := f.m_filter.setState buffer count
      m_sample_minus_1 := filterState.sample_minus_1
      m_sample_minus_2 := filterState.sample_minus_2
      m_init_count := filterState.init_count }

/-- Feed a sample sequence, collecting the returned values. -/
def SscFilter.run (f : SscFilter) : List ℚ → List ℚ × SscFilter
  | [] => ([], f)
  | v :: rest =>
    let step := f.addSample v
    let next := step.2.run rest
    (step.1 :: next.1, next.2)

/-! ## MovingAverageStage (adapters/MovingAverageStage.h) and pipeline state
loading (DspPipeline.cc).

The host-binding layer (Napi objects, JSON text) is an external boundary; the
stage state tree is embedded as plain structures with the same fields. -/

/-- `AverageMode`. -/
inductive AverageMode
  | Batch
  | Moving
deriving DecidableEq

/-- Stage state: mode, window size, one `MovingAverageFilter<float>` per
channel (a `SlidingWindowFilter` with `MeanPolicy`, state = running sum). -/
structure MovingAverageStage where
  m_mode : AverageMode
  m_window_size : Nat
  m_filters : List (SlidingWindowFilter ℚ ℚ)

/-- Per-channel entry of the serialized state tree:
`{buffer: [...], runningSum}`. -/
structure MAChannelState where
  buffer : List ℚ
  runningSum : ℚ

/-- Serialized stage state tree: `{mode, windowSize, channels}` (for Batch
mode the source emits only `mode`; the extra fields are ignored on restore). -/
structure MAStageState where
  mode : AverageMode
  windowSize : Nat
  channels : List MAChannelState

/-- Errors thrown by `MovingAverageStage::deserializeState`. -/
inductive DeserializeError
  | modeMismatch
  | windowSizeMismatch
  | stateCorruption
deriving DecidableEq

/-- `core/MovingAverageFilter.h` constructor: an engine of the given window
size with a default `MeanPolicy` (running sum 0). -/
def MovingAverageFilter.mkFilter (window_size : Nat) : SlidingWindowFilter ℚ ℚ :=
  ⟨CircularBufferArray.mkBuf window_size 0, 0⟩

/-- `MovingAverageStage::serializeState` (Moving mode payload): per channel
`{buffer: toVector, runningSum: policy state}`. -/
def MovingAverageStage.serializeState (s : MovingAverageStage) : MAStageState :=
  { mode := s.m_mode
    windowSize := s.m_window_size
    channels := s.m_filters.map fun f =>
      { buffer := f.m_buffer.toVector, runningSum := f.m_policy } }

/-- One iteration of the channel-restore loop in
`MovingAverageStage::deserializeState`: recompute `actualSum` from the stored
buffer, reject when `|runningSum - actualSum|` exceeds
`0.0001 * max(1, |actualSum|)`, else restore the filter's state. -/
def MovingAverageStage.restoreChannel (window_size : Nat) (ch : MAChannelState) :
    Except DeserializeError (SlidingWindowFilter ℚ ℚ) :=
  let actualSum := ch.buffer.sum
  let tolerance := (1 / 10000 : ℚ) * max 1 |actualSum|
  if |ch.runningSum - actualSum| > tolerance then .error .stateCorruption
  else .ok ((MovingAverageFilter.mkFilter window_size).setState ch.buffer ch.runningSum)

/-- The channel-restore loop (aborts at the first failing channel, like the
C++ throw). -/
def MovingAverageStage.restoreChannels (window_size : Nat) :
    List MAChannelState → Except DeserializeError (List (SlidingWindowFilter ℚ ℚ))
  | [] => .ok []
  | ch :: rest =>
    match MovingAverageStage.restoreChannel window_size ch with
    | .error e => .error e
    | .ok f =>
      match MovingAverageStage.restoreChannels window_size rest with
      | .error e => .error e
      | .ok fs => .ok (f :: fs)

/-- `MovingAverageStage::deserializeState`: mode must match; for Moving mode
the window size must match and every channel must pass the running-sum
validation.  (The C++ mutates the stage in place and can leave it partially
restored when a later channel fails; the claims checked here only
distinguish success from failure, so the model returns the restored stage or
the first error.) -/
def MovingAverageStage.deserializeState (s : MovingAverageStage) (state : MAStageState) :
    Except DeserializeError MovingAverageStage :=
  if state.mode ≠ s.m_mode then .error .modeMismatch
  else
    match s.m_mode with
    | .Batch => .ok s
    | .Moving =>
      if state.windowSize ≠ s.m_window_size then .error .windowSizeMismatch
      else
        match MovingAverageStage.restoreChannels s.m_window_size state.channels with
        | .error e => .error e
        | .ok filters => .ok { s with m_filters := filters }

/-- The strided per-channel sum
`for (size_t i = c; i < numSamples; i += numChannels) sum += buffer[i]`,
modelled as a single pass over the buffer keeping indices congruent to `c`
(the `i` argument is the index of the current element). -/
def channelSumFrom (numChannels c : Nat) : Nat → List ℚ → ℚ
  | _, [] => 0
  | i, v :: rest => (if i % numChannels = c then v else 0) + channelSumFrom numChannels c (i + 1) rest

/-- The strided per-channel overwrite
`for (size_t i = c; i < numSamples; i += numChannels) buffer[i] = average;`. -/
def overwriteChannelFrom (numChannels c : Nat) (average : ℚ) : Nat → List ℚ → List ℚ
  | _, [] => []
  | i, v :: rest =>
    (if i % numChannels = c then average else v) :: overwriteChannelFrom numChannels c average (i + 1) rest

/-- One iteration of the channel loop of `MovingAverageStage::processBatch`:
`numSamplesPerChannel = numSamples / numChannels` (integer division); skip the
channel when it is 0, else overwrite the channel with `sum /
numSamplesPerChannel`.  (The single-channel SIMD fast path computes the same
sum.) -/
def MovingAverageStage.processChannel (buf : List ℚ) (numChannels c : Nat) : List ℚ :=
  let numSamplesPerChannel := buf.length / numChannels
  if numSamplesPerChannel = 0 then buf
  else
    let sum := channelSumFrom numChannels c 0 buf
    let average := sum / (numSamplesPerChannel : ℚ)
    overwriteChannelFrom numChannels c average 0 buf

/-- `MovingAverageStage::processBatch`: run the channel loop for
`c = 0 .. numChannels-1` over the buffer in place. -/
def MovingAverageStage.processBatch (buf : List ℚ) (numChannels : Nat) : List ℚ :=
  (List.range numChannels).foldl (fun b c => MovingAverageStage.processChannel b numChannels c) buf

/-- Errors of `DspPipeline::LoadState`. -/
inductive LoadError
  | stageCountMismatch
  | stageFailure (e : DeserializeError)

/-- The per-stage restore loop of `DspPipeline::LoadState`: aborts at the
first stage failure, keeping the updates made so far (no rollback). -/
def DspPipeline.loadStateGo :
    List MovingAverageStage → List MAStageState →
      List MovingAverageStage × Option DeserializeError
  | [], _ => ([], none)
  | s :: ss, [] => (s :: ss, none)
  | s :: ss, t :: ts =>
    match s.deserializeState t with
    | .error e => (s :: ss, some e)
    | .ok s' =>
      let rest := DspPipeline.loadStateGo ss ts
      (s' :: rest.1, rest.2)

/-- `DspPipeline::LoadState`: validate the stage count BEFORE touching any
stage; on mismatch fail with `StageCountMismatch` and leave every stage as it
was.  Otherwise restore stage by stage. -/
def DspPipeline.loadState (m_stages : List MovingAverageStage) (saved : List MAStageState) :
    List MovingAverageStage × Option LoadError :=
  if saved.length ≠ m_stages.length then (m_stages, some .stageCountMismatch)
  else
    let r := DspPipeline.loadStateGo m_stages saved
    (r.1, r.2.map .stageFailure)

/-- Generic runner mirroring repeated `addSample` calls: each step performs the
`addSampleState` transition and records `getResult` of the post-state (exactly
the value `SlidingWindowFilter::addSample` returns). -/
def SlidingWindowFilter.runWith (onAdd onRemove : σ → α → σ) (getResult : σ → Nat → β)
    (f : SlidingWindowFilter α σ) : List α → List β × SlidingWindowFilter α σ
  | [] => ([], f)
  | v :: rest =>
    let f1 := f.addSampleState onAdd onRemove v
    let next := SlidingWindowFilter.runWith onAdd onRemove getResult f1 rest
    (getResult f1.m_policy f1.m_buffer.getCount :: next.1, next.2)

/-- A fresh or cleared engine: buffer invariant, empty window, policy in its
cleared state.  Freshly constructed filters and `clear()`ed filters both
satisfy it. -/
def SlidingWindowFilter.IsStart (clearState : σ) (f : SlidingWindowFilter α σ) : Prop :=
  f.m_buffer.BufInv ∧ f.m_buffer.count = 0 ∧ f.m_policy = clearState

instance [DecidableEq σ] (clearState : σ) (f : SlidingWindowFilter α σ) :
    Decidable (f.IsStart clearState) := by
  unfold SlidingWindowFilter.IsStart; infer_instance

/-- Observable-state equality of two `WampFilter`s. -/
def WampFilter.SimEq (f g : WampFilter) : Prop :=
  f.m_threshold = g.m_threshold ∧ f.m_previous_sample = g.m_previous_sample ∧
  f.m_is_initialized = g.m_is_initialized ∧ f.m_filter.SimEq g.m_filter

/-- Observable-state equality of two `WaveformLengthFilter`s. -/
def WaveformLengthFilter.SimEq (f g : WaveformLengthFilter) : Prop :=
  f.m_previous_sample = g.m_previous_sample ∧
  f.m_is_initialized = g.m_is_initialized ∧ f.m_filter.SimEq g.m_filter

/-- Observable-state equality of two `SscFilter`s. -/
def SscFilter.SimEq (f g : SscFilter) : Prop :=
  f.m_threshold = g.m_threshold ∧ f.m_sample_minus_1 = g.m_sample_minus_1 ∧
  f.m_sample_minus_2 = g.m_sample_minus_2 ∧ f.m_init_count = g.m_init_count ∧
  f.m_filter.SimEq g.m_filter

/-- Whether an `Except` computation succeeded. -/
def exceptIsOk : Except ε β → Bool
  | .ok _ => true
  | .error _ => false

/-! ## Lemma development -/

namespace CircularBufferArray

theorem bufInv_mkBuf (size : Nat) (init : α) : (mkBuf size init).BufInv := by
  refine ⟨le_max_right _ _, Nat.zero_le _, ?_, ?_⟩ <;> simp [mkBuf]

theorem bufInv_clear (b : CircularBufferArray α) (h : b.BufInv) : b.clear.BufInv := by
  obtain ⟨h1, _, _, _⟩ := h
  exact ⟨h1, Nat.zero_le _, h1, by simp [clear, Nat.mod_eq_of_lt h1]⟩

theorem toVector_clear (b : CircularBufferArray α) : b.clear.toVector = [] := by
  simp [clear, toVector]

theorem length_toVector (b : CircularBufferArray α) : b.toVector.length = b.count := by
  simp [toVector]

theorem bufInv_pushOverwrite (b : CircularBufferArray α) (h : b.BufInv) (x : α) :
    (b.pushOverwrite x).BufInv := by
  obtain ⟨hcap, hcnt, htail, hhead⟩ := h
  by_cases hfull : b.count = b.capacity
  · have hlt : ¬ b.count < b.capacity := by omega
    refine ⟨hcap, by simp [pushOverwrite, hfull, hlt], ?_, ?_⟩
    · simpa [pushOverwrite, hfull, hlt] using Nat.mod_lt _ (by omega)
    · have h1 : b.head = b.tail := by
        rw [hhead, hfull, Nat.add_mod_right, Nat.mod_eq_of_lt htail]
      simp only [pushOverwrite, hfull, hlt, if_true, if_false, if_pos rfl, h1]
      rw [if_neg (Nat.lt_irrefl b.capacity)]
      rw [Nat.add_mod_right ((b.tail + 1) % b.capacity) b.capacity]
      rw [Nat.mod_mod_of_dvd _ dvd_rfl]
  · have hlt : b.count < b.capacity := by omega
    refine ⟨hcap, ?_, ?_, ?_⟩
    · simp only [pushOverwrite, hfull, hlt, if_true, if_false]; omega
    · simp [pushOverwrite, hfull, hlt, htail]
    · simp only [pushOverwrite, hfull, hlt, if_true, if_false]
      rw [hhead, Nat.mod_add_mod, Nat.add_assoc]

/-- Two offsets below the capacity that land on the same ring slot are equal. -/
theorem add_mod_inj (cap t i j : Nat) (hi : i < cap) (hj : j < cap)
    (he : (t + i) % cap = (t + j) % cap) : i = j := by
  have h2 : i ≡ j [MOD cap] := Nat.ModEq.add_left_cancel' t he
  rwa [Nat.ModEq, Nat.mod_eq_of_lt hi, Nat.mod_eq_of_lt hj] at h2

/-- The abstract effect of `pushOverwrite` on the live contents: append the new
item, dropping the oldest one first when the buffer is full. -/
theorem toVector_pushOverwrite (b : CircularBufferArray α) (h : b.BufInv) (x : α) :
    (b.pushOverwrite x).toVector =
      (if b.count = b.capacity then b.toVector.drop 1 else b.toVector) ++ [x] := by
  obtain ⟨hcap, hcnt, htail, hhead⟩ := h
  by_cases hfull : b.count = b.capacity
  · have hlt : ¬ b.count < b.capacity := by omega
    have hht : b.head = b.tail := by
      rw [hhead, hfull, Nat.add_mod_right, Nat.mod_eq_of_lt htail]
    obtain ⟨m, hm⟩ : ∃ m, b.capacity = m + 1 := ⟨b.capacity - 1, by omega⟩
    have htail' : b.tail < m + 1 := hm ▸ htail
    rw [if_pos hfull]
    simp only [toVector, pushOverwrite, hlt, if_false, if_true, if_pos hfull, hht, hfull,
      hm, lt_self_iff_false]
    simp only [Nat.mod_add_mod]
    conv_lhs => rw [List.range_succ, List.map_append]
    conv_rhs => rw [List.range_succ_eq_map]
    simp only [List.map_cons, List.map_map, List.drop_succ_cons, List.drop_zero]
    congr 1
    · apply List.map_congr_left
      intro i hi
      rw [List.mem_range] at hi
      have hne : (b.tail + 1 + i) % (m + 1) ≠ b.tail := by
        intro he
        have he' : (b.tail + (1 + i)) % (m + 1) = (b.tail + 0) % (m + 1) := by
          have h0 : b.tail + (1 + i) = b.tail + 1 + i := by omega
          rw [h0, he, Nat.add_zero, Nat.mod_eq_of_lt htail']
        have := add_mod_inj (m + 1) b.tail (1 + i) 0 (by omega) (by omega) he'
        omega
      simp only [Function.comp, hne, if_false]
      congr 2
      omega
    · have hx : (b.tail + 1 + m) % (m + 1) = b.tail := by
        have h2 : b.tail + 1 + m = b.tail + (m + 1) := by omega
        rw [h2, Nat.add_mod_right, Nat.mod_eq_of_lt htail']
      simp [hx]
  · have hlt : b.count < b.capacity := by omega
    rw [if_neg hfull]
    simp only [toVector, pushOverwrite, if_pos hlt, if_neg hfull, if_true]
    rw [List.range_succ, List.map_append]
    congr 1
    · apply List.map_congr_left
      intro i hi
      rw [List.mem_range] at hi
      have hne : (b.tail + i) % b.capacity ≠ b.head := by
        intro he
        rw [hhead] at he
        have := add_mod_inj b.capacity b.tail i b.count (by omega) (by omega) he
        omega
      simp [hne]
    · have hx : (b.tail + b.count) % b.capacity = b.head := hhead.symm
      simp [hx]

/-- For a nonempty invariant buffer the live contents start with `peek`. -/
theorem toVector_cons_of_pos (b : CircularBufferArray α) (h : b.BufInv)
    (hc : 0 < b.count) : b.toVector = b.peek :: b.toVector.drop 1 := by
  obtain ⟨hcap, hcnt, htail, hhead⟩ := h
  obtain ⟨k, hk⟩ : ∃ k, b.count = k + 1 := ⟨b.count - 1, by omega⟩
  simp only [toVector, hk, List.range_succ_eq_map, List.map_cons, List.map_map,
    List.drop_succ_cons, List.drop_zero]
  rw [Nat.add_zero, Nat.mod_eq_of_lt htail]
  rfl

end CircularBufferArray

theorem listLastN_of_le (n : Nat) (l : List α) (h : l.length ≤ n) : listLastN n l = l := by
  unfold listLastN
  rw [Nat.sub_eq_zero_of_le h, List.drop_zero]

theorem length_listLastN (n : Nat) (l : List α) :
    (listLastN n l).length = min n l.length := by
  unfold listLastN
  rw [List.length_drop]
  omega

/-- Taking the last `n` of a prefix first does not change the last `n` of the
whole. -/
theorem listLastN_append_listLastN (n : Nat) (X l : List α) :
    listLastN n (listLastN n X ++ l) = listLastN n (X ++ l) := by
  unfold listLastN
  rw [List.length_append, List.length_drop, List.length_append]
  by_cases hl : l.length ≤ n
  · rw [List.drop_append_of_le_length (by rw [List.length_drop]; omega),
      List.drop_append_of_le_length (by omega), List.drop_drop]
    congr 2
    omega
  · have h1 : X.length - (X.length - n) + l.length - n
        = (X.length - (X.length - n)) + (l.length - n) := by omega
    have h2 : X.length + l.length - n = X.length + (l.length - n) := by omega
    rw [h1, h2]
    have h3 : X.length - (X.length - n) = (X.drop (X.length - n)).length := by
      rw [List.length_drop]
    rw [h3, List.drop_append, List.drop_append]

namespace CircularBufferArray

/-- Folding `pushOverwrite` over a sample list keeps the invariant and the
capacity and leaves exactly the last `capacity` of (old contents ++ samples)
as live contents. -/
theorem foldl_pushOverwrite_spec (l : List α) :
    ∀ b : CircularBufferArray α, b.BufInv →
      (l.foldl pushOverwrite b).BufInv ∧
      (l.foldl pushOverwrite b).capacity = b.capacity ∧
      (l.foldl pushOverwrite b).toVector = listLastN b.capacity (b.toVector ++ l) := by
  induction l with
  | nil =>
    intro b hb
    refine ⟨hb, rfl, ?_⟩
    rw [List.foldl_nil, List.append_nil, listLastN_of_le _ _ (by rw [length_toVector]; exact hb.2.1)]
  | cons a l ih =>
    intro b hb
    have hb' := bufInv_pushOverwrite b hb a
    obtain ⟨h1, h2, h3⟩ := ih (b.pushOverwrite a) hb'
    rw [List.foldl_cons]
    refine ⟨h1, h2, ?_⟩
    rw [h3]
    have hcapeq : (b.pushOverwrite a).capacity = b.capacity := rfl
    rw [hcapeq, toVector_pushOverwrite b hb a]
    have key : (if b.count = b.capacity then b.toVector.drop 1 else b.toVector) ++ [a]
        = listLastN b.capacity (b.toVector ++ [a]) := by
      by_cases hfull : b.count = b.capacity
      · rw [if_pos hfull]
        unfold listLastN
        rw [List.length_append, length_toVector, hfull]
        have hd : b.capacity + [a].length - b.capacity = 1 := by simp
        rw [hd, List.drop_append_of_le_length (by rw [length_toVector, hfull]; exact hb.1)]
      · rw [if_neg hfull]
        unfold listLastN
        have hd : b.toVector.length + [a].length - b.capacity = 0 := by
          rw [length_toVector]
          have := hb.2.1
          simp only [List.length_cons, List.length_nil]
          omega
        rw [List.length_append, hd, List.drop_zero]
    rw [key, listLastN_append_listLastN]
    congr 1
    rw [List.append_assoc]
    rfl

end CircularBufferArray

theorem SlidingWindowFilter.addSampleState_inv
    (onAdd onRemove : σ → α → σ) (recompute : List α → σ)
    (hAdd : ∀ (l : List α) (v : α), onAdd (recompute l) v = recompute (l ++ [v]))
    (hRemove : ∀ (x : α) (l : List α), onRemove (recompute (x :: l)) x = recompute l)
    (f : SlidingWindowFilter α σ) (hf : SlidingWindowFilter.Inv recompute f) (v : α) :
    SlidingWindowFilter.Inv recompute (f.addSampleState onAdd onRemove v) := by
  obtain ⟨hb, hp⟩ := hf
  refine ⟨CircularBufferArray.bufInv_pushOverwrite _ hb v, ?_⟩
  show onAdd (if f.m_buffer.isFull then onRemove f.m_policy f.m_buffer.peek else f.m_policy) v
      = recompute (f.m_buffer.pushOverwrite v).toVector
  rw [CircularBufferArray.toVector_pushOverwrite _ hb v]
  by_cases hfull : f.m_buffer.count = f.m_buffer.capacity
  · have hfb : f.m_buffer.isFull = true := by
      simp [CircularBufferArray.isFull, hfull]
    have hpos : 0 < f.m_buffer.count := by have := hb.1; omega
    have hcons := CircularBufferArray.toVector_cons_of_pos _ hb hpos
    rw [hfb, if_pos rfl, if_pos hfull, hp]
    conv_lhs => rw [hcons]
    rw [hRemove, hAdd]
  · have hfb : f.m_buffer.isFull = false := by
      simp [CircularBufferArray.isFull, hfull]
    rw [hfb, if_neg (by simp), if_neg hfull, hp, hAdd]

theorem SlidingWindowFilter.foldl_addSampleState_inv
    (onAdd onRemove : σ → α → σ) (recompute : List α → σ)
    (hAdd : ∀ (l : List α) (v : α), onAdd (recompute l) v = recompute (l ++ [v]))
    (hRemove : ∀ (x : α) (l : List α), onRemove (recompute (x :: l)) x = recompute l)
    (samples : List α) :
    ∀ f : SlidingWindowFilter α σ, SlidingWindowFilter.Inv recompute f →
      SlidingWindowFilter.Inv recompute
        (samples.foldl (SlidingWindowFilter.addSampleState onAdd onRemove) f) := by
  induction samples with
  | nil => intro f hf; exact hf
  | cons a l ih =>
    intro f hf
    exact ih _ (SlidingWindowFilter.addSampleState_inv onAdd onRemove recompute hAdd hRemove f hf a)

theorem SlidingWindowFilter.SimEq.count_eq {f g : SlidingWindowFilter α σ}
    (h : f.SimEq g) : f.m_buffer.count = g.m_buffer.count := by
  rw [← CircularBufferArray.length_toVector, ← CircularBufferArray.length_toVector, h.2.2.2.1]

theorem SlidingWindowFilter.SimEq.addSampleState (onAdd onRemove : σ → α → σ)
    {f g : SlidingWindowFilter α σ} (h : f.SimEq g) (v : α) :
    (f.addSampleState onAdd onRemove v).SimEq (g.addSampleState onAdd onRemove v) := by
  obtain ⟨hbf, hbg, hcap, htv, hpol⟩ := h
  have hcnt : f.m_buffer.count = g.m_buffer.count :=
    SlidingWindowFilter.SimEq.count_eq ⟨hbf, hbg, hcap, htv, hpol⟩
  have hfull : f.m_buffer.isFull = g.m_buffer.isFull := by
    simp [CircularBufferArray.isFull, hcnt, hcap]
  have hpeek : f.m_buffer.isFull = true → f.m_buffer.peek = g.m_buffer.peek := by
    intro hfl
    have hposf : 0 < f.m_buffer.count := by
      have h1 : f.m_buffer.count = f.m_buffer.capacity := by
        simpa [CircularBufferArray.isFull] using hfl
      have := hbf.1
      omega
    have hposg : 0 < g.m_buffer.count := by omega
    have h1 := CircularBufferArray.toVector_cons_of_pos _ hbf hposf
    have h2 := CircularBufferArray.toVector_cons_of_pos _ hbg hposg
    rw [h1, h2] at htv
    exact (List.cons.injEq _ _ _ _ ▸ htv).1
  refine ⟨CircularBufferArray.bufInv_pushOverwrite _ hbf v,
    CircularBufferArray.bufInv_pushOverwrite _ hbg v, hcap, ?_, ?_⟩
  · simp only [SlidingWindowFilter.addSampleState]
    rw [CircularBufferArray.toVector_pushOverwrite _ hbf v,
      CircularBufferArray.toVector_pushOverwrite _ hbg v, htv, hcnt, hcap]
  · simp only [SlidingWindowFilter.addSampleState]
    cases hfl : f.m_buffer.isFull
    · have hgl : g.m_buffer.isFull = false := by rw [← hfull, hfl]
      rw [hgl]
      simp [hpol]
    · have hgl : g.m_buffer.isFull = true := by rw [← hfull, hfl]
      rw [hgl]
      simp [hpol, hpeek hfl]

/-! Homomorphism laws: each policy's incremental update agrees with the exact
recomputation when a value enters at the new end or leaves at the old end. -/

theorem meanPolicy_onAdd_recompute (l : List ℚ) (v : ℚ) :
    MeanPolicy.onAdd (MeanPolicy.recompute l) v = MeanPolicy.recompute (l ++ [v]) := by
  simp [MeanPolicy.onAdd, MeanPolicy.recompute]

theorem meanPolicy_onRemove_recompute (x : ℚ) (l : List ℚ) :
    MeanPolicy.onRemove (MeanPolicy.recompute (x :: l)) x = MeanPolicy.recompute l := by
  simp [MeanPolicy.onRemove, MeanPolicy.recompute]

theorem rmsPolicy_onAdd_recompute (l : List ℚ) (v : ℚ) :
    RmsPolicy.onAdd (RmsPolicy.recompute l) v = RmsPolicy.recompute (l ++ [v]) := by
  simp [RmsPolicy.onAdd, RmsPolicy.recompute]

theorem rmsPolicy_onRemove_recompute (x : ℚ) (l : List ℚ) :
    RmsPolicy.onRemove (RmsPolicy.recompute (x :: l)) x = RmsPolicy.recompute l := by
  simp [RmsPolicy.onRemove, RmsPolicy.recompute]

theorem sumPolicy_onAdd_recompute (l : List ℚ) (v : ℚ) :
    SumPolicy.onAdd (SumPolicy.recompute l) v = SumPolicy.recompute (l ++ [v]) := by
  simp [SumPolicy.onAdd, SumPolicy.recompute]

theorem sumPolicy_onRemove_recompute (x : ℚ) (l : List ℚ) :
    SumPolicy.onRemove (SumPolicy.recompute (x :: l)) x = SumPolicy.recompute l := by
  simp [SumPolicy.onRemove, SumPolicy.recompute]

theorem counterPolicy_onAdd_recompute (l : List Bool) (v : Bool) :
    CounterPolicy.onAdd (CounterPolicy.recompute l) v = CounterPolicy.recompute (l ++ [v]) := by
  cases v <;> simp [CounterPolicy.onAdd, CounterPolicy.recompute]

theorem counterPolicy_onRemove_recompute (x : Bool) (l : List Bool) :
    CounterPolicy.onRemove (CounterPolicy.recompute (x :: l)) x = CounterPolicy.recompute l := by
  cases x <;> simp [CounterPolicy.onRemove, CounterPolicy.recompute]

theorem mavPolicy_onAdd_recompute (l : List ℚ) (v : ℚ) :
    MeanAbsoluteValuePolicy.onAdd (MeanAbsoluteValuePolicy.recompute l) v
      = MeanAbsoluteValuePolicy.recompute (l ++ [v]) := by
  simp [MeanAbsoluteValuePolicy.onAdd, MeanAbsoluteValuePolicy.recompute]

theorem mavPolicy_onRemove_recompute (x : ℚ) (l : List ℚ) :
    MeanAbsoluteValuePolicy.onRemove (MeanAbsoluteValuePolicy.recompute (x :: l)) x
      = MeanAbsoluteValuePolicy.recompute l := by
  simp [MeanAbsoluteValuePolicy.onRemove, MeanAbsoluteValuePolicy.recompute]

theorem variancePolicy_onAdd_recompute (l : List ℚ) (v : ℚ) :
    VariancePolicy.onAdd (VariancePolicy.recompute l) v = VariancePolicy.recompute (l ++ [v]) := by
  simp [VariancePolicy.onAdd, VariancePolicy.recompute]

theorem variancePolicy_onRemove_recompute (x : ℚ) (l : List ℚ) :
    VariancePolicy.onRemove (VariancePolicy.recompute (x :: l)) x = VariancePolicy.recompute l := by
  simp [VariancePolicy.onRemove, VariancePolicy.recompute]

theorem CircularBufferArray.toVector_of_count_zero (b : CircularBufferArray α)
    (h : b.count = 0) : b.toVector = [] := by
  simp [CircularBufferArray.toVector, h]

theorem SlidingWindowFilter.isStart_inv (recompute : List α → σ) (clearState : σ)
    (hnil : recompute [] = clearState) (f : SlidingWindowFilter α σ)
    (h : f.IsStart clearState) : SlidingWindowFilter.Inv recompute f := by
  obtain ⟨hb, hc, hp⟩ := h
  refine ⟨hb, ?_⟩
  rw [CircularBufferArray.toVector_of_count_zero _ hc, hnil, hp]

theorem CircularBufferArray.fromVector_spec (b : CircularBufferArray α) (h : b.BufInv)
    (data : List α) :
    (b.fromVector data).BufInv ∧ (b.fromVector data).capacity = b.capacity ∧
    (b.fromVector data).toVector = listLastN b.capacity data := by
  have hc := CircularBufferArray.bufInv_clear b h
  obtain ⟨h1, h2, h3⟩ := CircularBufferArray.foldl_pushOverwrite_spec data b.clear hc
  refine ⟨h1, h2, ?_⟩
  show (List.foldl CircularBufferArray.pushOverwrite b.clear data).toVector = _
  rw [h3, CircularBufferArray.toVector_clear, List.nil_append]
  rfl

theorem SlidingWindowFilter.runWith_snd (onAdd onRemove : σ → α → σ)
    (getResult : σ → Nat → β) (l : List α) :
    ∀ f : SlidingWindowFilter α σ,
      (SlidingWindowFilter.runWith onAdd onRemove getResult f l).2 =
        l.foldl (SlidingWindowFilter.addSampleState onAdd onRemove) f := by
  induction l with
  | nil => intro f; rfl
  | cons v rest ih =>
    intro f
    simp only [SlidingWindowFilter.runWith, List.foldl_cons]
    exact ih _

theorem SlidingWindowFilter.runWith_getLast (onAdd onRemove : σ → α → σ)
    (getResult : σ → Nat → β) :
    ∀ (l : List α) (f : SlidingWindowFilter α σ), l ≠ [] →
      (SlidingWindowFilter.runWith onAdd onRemove getResult f l).1.getLast? =
        some (getResult
          (l.foldl (SlidingWindowFilter.addSampleState onAdd onRemove) f).m_policy
          (l.foldl (SlidingWindowFilter.addSampleState onAdd onRemove) f).m_buffer.getCount)
  | [], _, h => absurd rfl h
  | [v], f, _ => by
    simp [SlidingWindowFilter.runWith]
  | v :: w :: rest, f, _ => by
    have ih := SlidingWindowFilter.runWith_getLast onAdd onRemove getResult (w :: rest)
      (f.addSampleState onAdd onRemove v) (by simp)
    simp only [SlidingWindowFilter.runWith] at ih ⊢
    rw [List.getLast?_cons_cons]
    rw [ih]
    simp [List.foldl_cons]

/-! ## Claim theorems -/

/-- C2: for every ring buffer of capacity `N` (constructed with size `N ≥ 1`)
and every sequence of `M > N` values pushed via `pushOverwrite` into the
initially empty buffer, `toVector()` returns exactly the last `N` values in
oldest-to-newest order. -/
theorem claim_C2_ring_fifo {α : Type} (N : Nat) (init : α) (l : List α)
    (hN : 1 ≤ N) (hM : N < l.length) :
    (l.foldl CircularBufferArray.pushOverwrite (CircularBufferArray.mkBuf N init)).toVector
      = l.drop (l.length - N) := by
  obtain ⟨h1, h2, h3⟩ := CircularBufferArray.foldl_pushOverwrite_spec l _
    (CircularBufferArray.bufInv_mkBuf N init)
  rw [h3, CircularBufferArray.toVector_of_count_zero _ rfl, List.nil_append]
  unfold listLastN
  show l.drop (l.length - max N 1) = _
  rw [Nat.max_eq_left hN]

/-- Witness for C2 at `N = 2`, values `[1,2,3]`: the buffer retains `[2,3]`. -/
theorem claim_C2_ring_fifo_witness :
    (1 ≤ 2 ∧ 2 < ([1, 2, 3] : List ℚ).length) ∧
      (([1, 2, 3] : List ℚ).foldl CircularBufferArray.pushOverwrite
        (CircularBufferArray.mkBuf 2 (0 : ℚ))).toVector = [2, 3] :=
  ⟨⟨by decide, by decide⟩,
    (claim_C2_ring_fifo 2 (0 : ℚ) [1, 2, 3] (by decide) (by decide)).trans (by decide)⟩

/-- C10: constructing a `CircularBufferArray` with size 0 succeeds (the
constructor is total) and silently produces a buffer of capacity 1: a single
`pushOverwrite` makes it full, and no size ever yields capacity 0. -/
theorem claim_C10_zero_size_capacity_one :
    (CircularBufferArray.mkBuf 0 (0 : ℚ)).getCapacity = 1 ∧
    (∀ x : ℚ, ((CircularBufferArray.mkBuf 0 (0 : ℚ)).pushOverwrite x).isFull = true) ∧
    (∀ size : Nat, 1 ≤ (CircularBufferArray.mkBuf size (0 : ℚ)).getCapacity) :=
  ⟨rfl, fun _ => rfl, fun _ => le_max_right _ _⟩

/-- C7: a Batch-mode movingAverage stage over the 2-channel interleaved buffer
`[1,2,3,4]` overwrites each sample with its channel's mean: `[2,3,2,3]`. -/
theorem claim_C7_batch_broadcast :
    MovingAverageStage.processBatch [1, 2, 3, 4] 2 = [2, 3, 2, 3] := by
  show (List.range 2).foldl (fun b c => MovingAverageStage.processChannel b 2 c) [1, 2, 3, 4]
      = [2, 3, 2, 3]
  norm_num [List.range_succ, MovingAverageStage.processChannel, channelSumFrom,
    overwriteChannelFrom]

/-- C6: `loadState` against a saved state whose stage count differs fails with
`StageCountMismatch` and returns the stage list unchanged (the mismatch is
checked before any stage's `deserializeState` runs). -/
theorem claim_C6_stage_count_mismatch (stages : List MovingAverageStage)
    (saved : List MAStageState) (h : saved.length ≠ stages.length) :
    DspPipeline.loadState stages saved = (stages, some LoadError.stageCountMismatch) := by
  unfold DspPipeline.loadState
  rw [if_pos h]

/-- Witness for C6: a one-stage pipeline against an empty saved-stages list. -/
theorem claim_C6_stage_count_mismatch_witness :
    ([] : List MAStageState).length ≠ [(⟨.Batch, 0, []⟩ : MovingAverageStage)].length ∧
    DspPipeline.loadState [(⟨.Batch, 0, []⟩ : MovingAverageStage)] []
      = ([(⟨.Batch, 0, []⟩ : MovingAverageStage)], some LoadError.stageCountMismatch) :=
  ⟨by decide, claim_C6_stage_count_mismatch _ _ (by decide)⟩

/-- Generic incremental/batch agreement: starting from a fresh or cleared
engine, after any nonempty sample sequence the policy state equals the exact
recomputation from the window contents, and the value returned by the last
`addSample` equals the statistic recomputed directly from `toVector()`
(exactly, hence within the `1e-4 * max(1,|value|)` tolerance). -/
theorem SlidingWindowFilter.incremental_batch {α σ : Type}
    (onAdd onRemove : σ → α → σ) (getResult : σ → Nat → ℚ)
    (recompute : List α → σ) (clearState : σ)
    (hnil : recompute [] = clearState)
    (hAdd : ∀ (l : List α) (v : α), onAdd (recompute l) v = recompute (l ++ [v]))
    (hRemove : ∀ (x : α) (l : List α), onRemove (recompute (x :: l)) x = recompute l)
    (f : SlidingWindowFilter α σ) (samples : List α)
    (hstart : f.IsStart clearState) (hne : samples ≠ []) :
    (samples.foldl (SlidingWindowFilter.addSampleState onAdd onRemove) f).m_policy
      = recompute (samples.foldl (SlidingWindowFilter.addSampleState onAdd onRemove)
          f).m_buffer.toVector ∧
    ∃ r, (SlidingWindowFilter.runWith onAdd onRemove getResult f samples).1.getLast? = some r ∧
      |r - getResult
          (recompute (samples.foldl (SlidingWindowFilter.addSampleState onAdd onRemove)
            f).m_buffer.toVector)
          (samples.foldl (SlidingWindowFilter.addSampleState onAdd onRemove)
            f).m_buffer.toVector.length|
        ≤ 1 / 10000 * max 1
            |getResult
              (recompute (samples.foldl (SlidingWindowFilter.addSampleState onAdd onRemove)
                f).m_buffer.toVector)
              (samples.foldl (SlidingWindowFilter.addSampleState onAdd onRemove)
                f).m_buffer.toVector.length| := by
  have hInv0 : SlidingWindowFilter.Inv recompute f :=
    SlidingWindowFilter.isStart_inv recompute clearState hnil f hstart
  have hInv := SlidingWindowFilter.foldl_addSampleState_inv onAdd onRemove recompute
    hAdd hRemove samples f hInv0
  refine ⟨hInv.2, ?_⟩
  have hlast := SlidingWindowFilter.runWith_getLast onAdd onRemove getResult samples f hne
  refine ⟨_, hlast, ?_⟩
  rw [hInv.2]
  show |getResult _ (CircularBufferArray.getCount _) - _| ≤ _
  rw [CircularBufferArray.getCount, ← CircularBufferArray.length_toVector]
  rw [sub_self, abs_zero]
  have h1 : (1 : ℚ) ≤ max 1 |getResult
      (recompute (samples.foldl (SlidingWindowFilter.addSampleState onAdd onRemove)
        f).m_buffer.toVector)
      (samples.foldl (SlidingWindowFilter.addSampleState onAdd onRemove)
        f).m_buffer.toVector.length| := le_max_left _ _
  positivity

/-- C1: for the Mean, RMS, Variance and MeanAbsoluteValue policies, for every
sample sequence fed through `addSample` from a fresh or cleared filter of any
window size, the value returned by the last `addSample` equals the statistic
recomputed directly from the buffer's current contents (`toVector`), within
tolerance `1e-4 * max(1,|value|)` — in the exact-arithmetic model the two
agree exactly; for RMS this holds for every square-root function applied to
the clamped mean square, since the radicands agree exactly.  The first
conjunct of each part states the equivalent invariant: the policy state never
reflects more or fewer additions than the window's live contents. -/
theorem claim_C1_incremental_batch_equivalence :
    (∀ (f : SlidingWindowFilter ℚ ℚ) (samples : List ℚ),
      f.IsStart 0 → samples ≠ [] →
      (samples.foldl (SlidingWindowFilter.addSampleState MeanPolicy.onAdd MeanPolicy.onRemove)
          f).m_policy
        = MeanPolicy.recompute (samples.foldl
            (SlidingWindowFilter.addSampleState MeanPolicy.onAdd MeanPolicy.onRemove)
            f).m_buffer.toVector ∧
      ∃ r, (SlidingWindowFilter.runWith MeanPolicy.onAdd MeanPolicy.onRemove
            MeanPolicy.getResult f samples).1.getLast? = some r ∧
        |r - MeanPolicy.getResult
            (MeanPolicy.recompute (samples.foldl
              (SlidingWindowFilter.addSampleState MeanPolicy.onAdd MeanPolicy.onRemove)
              f).m_buffer.toVector)
            (samples.foldl
              (SlidingWindowFilter.addSampleState MeanPolicy.onAdd MeanPolicy.onRemove)
              f).m_buffer.toVector.length|
          ≤ 1 / 10000 * max 1
              |MeanPolicy.getResult
                (MeanPolicy.recompute (samples.foldl
                  (SlidingWindowFilter.addSampleState MeanPolicy.onAdd MeanPolicy.onRemove)
                  f).m_buffer.toVector)
                (samples.foldl
                  (SlidingWindowFilter.addSampleState MeanPolicy.onAdd MeanPolicy.onRemove)
                  f).m_buffer.toVector.length|) ∧
    (∀ (sqrtFn : ℚ → ℚ) (f : SlidingWindowFilter ℚ ℚ) (samples : List ℚ),
      f.IsStart 0 → samples ≠ [] →
      (samples.foldl (SlidingWindowFilter.addSampleState RmsPolicy.onAdd RmsPolicy.onRemove)
          f).m_policy
        = RmsPolicy.recompute (samples.foldl
            (SlidingWindowFilter.addSampleState RmsPolicy.onAdd RmsPolicy.onRemove)
            f).m_buffer.toVector ∧
      ∃ r, (SlidingWindowFilter.runWith RmsPolicy.onAdd RmsPolicy.onRemove
            (RmsPolicy.getResult sqrtFn) f samples).1.getLast? = some r ∧
        |r - RmsPolicy.getResult sqrtFn
            (RmsPolicy.recompute (samples.foldl
              (SlidingWindowFilter.addSampleState RmsPolicy.onAdd RmsPolicy.onRemove)
              f).m_buffer.toVector)
            (samples.foldl
              (SlidingWindowFilter.addSampleState RmsPolicy.onAdd RmsPolicy.onRemove)
              f).m_buffer.toVector.length|
          ≤ 1 / 10000 * max 1
              |RmsPolicy.getResult sqrtFn
                (RmsPolicy.recompute (samples.foldl
                  (SlidingWindowFilter.addSampleState RmsPolicy.onAdd RmsPolicy.onRemove)
                  f).m_buffer.toVector)
                (samples.foldl
                  (SlidingWindowFilter.addSampleState RmsPolicy.onAdd RmsPolicy.onRemove)
                  f).m_buffer.toVector.length|) ∧
    (∀ (f : SlidingWindowFilter ℚ (ℚ × ℚ)) (samples : List ℚ),
      f.IsStart (0, 0) → samples ≠ [] →
      (samples.foldl
          (SlidingWindowFilter.addSampleState VariancePolicy.onAdd VariancePolicy.onRemove)
          f).m_policy
        = VariancePolicy.recompute (samples.foldl
            (SlidingWindowFilter.addSampleState VariancePolicy.onAdd VariancePolicy.onRemove)
            f).m_buffer.toVector ∧
      ∃ r, (SlidingWindowFilter.runWith VariancePolicy.onAdd VariancePolicy.onRemove
            VariancePolicy.getResult f samples).1.getLast? = some r ∧
        |r - VariancePolicy.getResult
            (VariancePolicy.recompute (samples.foldl
              (SlidingWindowFilter.addSampleState VariancePolicy.onAdd VariancePolicy.onRemove)
              f).m_buffer.toVector)
            (samples.foldl
              (SlidingWindowFilter.addSampleState VariancePolicy.onAdd VariancePolicy.onRemove)
              f).m_buffer.toVector.length|
          ≤ 1 / 10000 * max 1
              |VariancePolicy.getResult
                (VariancePolicy.recompute (samples.foldl
                  (SlidingWindowFilter.addSampleState VariancePolicy.onAdd
                    VariancePolicy.onRemove) f).m_buffer.toVector)
                (samples.foldl
                  (SlidingWindowFilter.addSampleState VariancePolicy.onAdd
                    VariancePolicy.onRemove) f).m_buffer.toVector.length|) ∧
    (∀ (f : SlidingWindowFilter ℚ ℚ) (samples : List ℚ),
      f.IsStart 0 → samples ≠ [] →
      (samples.foldl (SlidingWindowFilter.addSampleState MeanAbsoluteValuePolicy.onAdd
          MeanAbsoluteValuePolicy.onRemove) f).m_policy
        = MeanAbsoluteValuePolicy.recompute (samples.foldl
            (SlidingWindowFilter.addSampleState MeanAbsoluteValuePolicy.onAdd
              MeanAbsoluteValuePolicy.onRemove) f).m_buffer.toVector ∧
      ∃ r, (SlidingWindowFilter.runWith MeanAbsoluteValuePolicy.onAdd
            MeanAbsoluteValuePolicy.onRemove MeanAbsoluteValuePolicy.getResult
            f samples).1.getLast? = some r ∧
        |r - MeanAbsoluteValuePolicy.getResult
            (MeanAbsoluteValuePolicy.recompute (samples.foldl
              (SlidingWindowFilter.addSampleState MeanAbsoluteValuePolicy.onAdd
                MeanAbsoluteValuePolicy.onRemove) f).m_buffer.toVector)
            (samples.foldl
              (SlidingWindowFilter.addSampleState MeanAbsoluteValuePolicy.onAdd
                MeanAbsoluteValuePolicy.onRemove) f).m_buffer.toVector.length|
          ≤ 1 / 10000 * max 1
              |MeanAbsoluteValuePolicy.getResult
                (MeanAbsoluteValuePolicy.recompute (samples.foldl
                  (SlidingWindowFilter.addSampleState MeanAbsoluteValuePolicy.onAdd
                    MeanAbsoluteValuePolicy.onRemove) f).m_buffer.toVector)
                (samples.foldl
                  (SlidingWindowFilter.addSampleState MeanAbsoluteValuePolicy.onAdd
                    MeanAbsoluteValuePolicy.onRemove) f).m_buffer.toVector.length|) := by
  refine ⟨?_, ?_, ?_, ?_⟩
  · intro f samples h1 h2
    exact SlidingWindowFilter.incremental_batch MeanPolicy.onAdd MeanPolicy.onRemove
      MeanPolicy.getResult MeanPolicy.recompute 0 rfl
      meanPolicy_onAdd_recompute meanPolicy_onRemove_recompute f samples h1 h2
  · intro sqrtFn f samples h1 h2
    exact SlidingWindowFilter.incremental_batch RmsPolicy.onAdd RmsPolicy.onRemove
      (RmsPolicy.getResult sqrtFn) RmsPolicy.recompute 0 rfl
      rmsPolicy_onAdd_recompute rmsPolicy_onRemove_recompute f samples h1 h2
  · intro f samples h1 h2
    exact SlidingWindowFilter.incremental_batch VariancePolicy.onAdd VariancePolicy.onRemove
      VariancePolicy.getResult VariancePolicy.recompute (0, 0) rfl
      variancePolicy_onAdd_recompute variancePolicy_onRemove_recompute f samples h1 h2
  · intro f samples h1 h2
    exact SlidingWindowFilter.incremental_batch MeanAbsoluteValuePolicy.onAdd
      MeanAbsoluteValuePolicy.onRemove MeanAbsoluteValuePolicy.getResult
      MeanAbsoluteValuePolicy.recompute 0 rfl
      mavPolicy_onAdd_recompute mavPolicy_onRemove_recompute
      f samples h1 h2

/-- Witness for C1: the Mean part applied to a fresh window of size 2 and the
samples `[1,2,3]`, with both hypotheses discharged concretely. -/
theorem claim_C1_incremental_batch_equivalence_witness :
    ((⟨CircularBufferArray.mkBuf 2 (0 : ℚ), (0 : ℚ)⟩ : SlidingWindowFilter ℚ ℚ).IsStart 0 ∧
      ([1, 2, 3] : List ℚ) ≠ []) ∧
    ((([1, 2, 3] : List ℚ).foldl
        (SlidingWindowFilter.addSampleState MeanPolicy.onAdd MeanPolicy.onRemove)
        ⟨CircularBufferArray.mkBuf 2 (0 : ℚ), (0 : ℚ)⟩).m_policy
      = MeanPolicy.recompute (([1, 2, 3] : List ℚ).foldl
          (SlidingWindowFilter.addSampleState MeanPolicy.onAdd MeanPolicy.onRemove)
          ⟨CircularBufferArray.mkBuf 2 (0 : ℚ), (0 : ℚ)⟩).m_buffer.toVector ∧
      ∃ r, (SlidingWindowFilter.runWith MeanPolicy.onAdd MeanPolicy.onRemove
            MeanPolicy.getResult ⟨CircularBufferArray.mkBuf 2 (0 : ℚ), (0 : ℚ)⟩
            [1, 2, 3]).1.getLast? = some r ∧
        |r - MeanPolicy.getResult
            (MeanPolicy.recompute (([1, 2, 3] : List ℚ).foldl
              (SlidingWindowFilter.addSampleState MeanPolicy.onAdd MeanPolicy.onRemove)
              ⟨CircularBufferArray.mkBuf 2 (0 : ℚ), (0 : ℚ)⟩).m_buffer.toVector)
            (([1, 2, 3] : List ℚ).foldl
              (SlidingWindowFilter.addSampleState MeanPolicy.onAdd MeanPolicy.onRemove)
              ⟨CircularBufferArray.mkBuf 2 (0 : ℚ), (0 : ℚ)⟩).m_buffer.toVector.length|
          ≤ 1 / 10000 * max 1
              |MeanPolicy.getResult
                (MeanPolicy.recompute (([1, 2, 3] : List ℚ).foldl
                  (SlidingWindowFilter.addSampleState MeanPolicy.onAdd MeanPolicy.onRemove)
                  ⟨CircularBufferArray.mkBuf 2 (0 : ℚ), (0 : ℚ)⟩).m_buffer.toVector)
                (([1, 2, 3] : List ℚ).foldl
                  (SlidingWindowFilter.addSampleState MeanPolicy.onAdd MeanPolicy.onRemove)
                  ⟨CircularBufferArray.mkBuf 2 (0 : ℚ), (0 : ℚ)⟩).m_buffer.toVector.length|) :=
  ⟨⟨by decide, by decide⟩,
    claim_C1_incremental_batch_equivalence.1
      ⟨CircularBufferArray.mkBuf 2 (0 : ℚ), (0 : ℚ)⟩ [1, 2, 3] (by decide) (by decide)⟩

/-- C8: for every `SlidingWindowFilter<bool, CounterPolicy>` started fresh or
cleared, after any sequence of `addSample` calls the stored count equals the
number of `true` values currently in the ring buffer; in particular, whenever
`addSample` would invoke `onRemove(true)` (buffer full with oldest value
`true`), the stored count is positive, so the unsigned decrement never
underflows. -/
theorem claim_C8_counter_no_underflow (f : SlidingWindowFilter Bool Nat)
    (samples : List Bool) (hstart : f.IsStart 0) :
    (samples.foldl (SlidingWindowFilter.addSampleState CounterPolicy.onAdd
        CounterPolicy.onRemove) f).m_policy
      = ((samples.foldl (SlidingWindowFilter.addSampleState CounterPolicy.onAdd
          CounterPolicy.onRemove) f).m_buffer.toVector).count true ∧
    ((samples.foldl (SlidingWindowFilter.addSampleState CounterPolicy.onAdd
        CounterPolicy.onRemove) f).m_buffer.isFull = true →
      (samples.foldl (SlidingWindowFilter.addSampleState CounterPolicy.onAdd
        CounterPolicy.onRemove) f).m_buffer.peek = true →
      0 < (samples.foldl (SlidingWindowFilter.addSampleState CounterPolicy.onAdd
        CounterPolicy.onRemove) f).m_policy) := by
  have hInv0 : SlidingWindowFilter.Inv CounterPolicy.recompute f :=
    SlidingWindowFilter.isStart_inv CounterPolicy.recompute 0 rfl f hstart
  have hInv := SlidingWindowFilter.foldl_addSampleState_inv CounterPolicy.onAdd
    CounterPolicy.onRemove CounterPolicy.recompute counterPolicy_onAdd_recompute
    counterPolicy_onRemove_recompute samples f hInv0
  refine ⟨hInv.2, ?_⟩
  intro hfull hpeek
  have hb := hInv.1
  have hcap : 1 ≤ (samples.foldl (SlidingWindowFilter.addSampleState CounterPolicy.onAdd
      CounterPolicy.onRemove) f).m_buffer.capacity := hb.1
  have hcnt : (samples.foldl (SlidingWindowFilter.addSampleState CounterPolicy.onAdd
      CounterPolicy.onRemove) f).m_buffer.count
      = (samples.foldl (SlidingWindowFilter.addSampleState CounterPolicy.onAdd
        CounterPolicy.onRemove) f).m_buffer.capacity := by
    simpa [CircularBufferArray.isFull] using hfull
  have hpos : 0 < (samples.foldl (SlidingWindowFilter.addSampleState CounterPolicy.onAdd
      CounterPolicy.onRemove) f).m_buffer.count := by omega
  have hcons := CircularBufferArray.toVector_cons_of_pos _ hb hpos
  rw [hInv.2]
  unfold CounterPolicy.recompute
  rw [hcons, hpeek]
  simp

/-- Witness for C8: window size 2 fed `[true, true]` — the window is full with
oldest value `true` and the stored count is 2 > 0. -/
theorem claim_C8_counter_no_underflow_witness :
    (⟨CircularBufferArray.mkBuf 2 false, 0⟩ : SlidingWindowFilter Bool Nat).IsStart 0 ∧
    0 < (([true, true] : List Bool).foldl (SlidingWindowFilter.addSampleState
        CounterPolicy.onAdd CounterPolicy.onRemove)
        ⟨CircularBufferArray.mkBuf 2 false, 0⟩).m_policy :=
  ⟨by decide,
    (claim_C8_counter_no_underflow ⟨CircularBufferArray.mkBuf 2 false, 0⟩ [true, true]
      (by decide)).2 (by decide) (by decide)⟩

/-- C5 counterexample: `SumPolicy::getResult` and `CounterPolicy::getResult`
ignore the `count` argument and return the stored aggregate: with a stored
running sum of 5 (resp. a stored counter of 3), `getResult(0)` returns 5
(resp. 3), not the identity value 0. -/
theorem claim_C5_counterexample :
    SumPolicy.getResult 5 0 ≠ 0 ∧ CounterPolicy.getResult 3 0 ≠ 0 := by
  refine ⟨?_, ?_⟩
  · show (5 : ℚ) ≠ 0
    norm_num
  · show ((3 : Nat) : ℚ) ≠ 0
    norm_num

/-- C5 (amended): Mean, RMS, MeanAbsoluteValue, Variance and ZScore return the
identity value 0 at `count == 0` for every policy state (no division by zero
is attempted); Counter and Sum ignore the `count` argument and return their
stored aggregate, which is 0 exactly in states consistent with an empty
window — in particular `getResult(0)` is 0 for a fresh or cleared policy. -/
theorem claim_C5_amended_zero_count :
    (∀ s : ℚ, MeanPolicy.getResult s 0 = 0) ∧
    (∀ (sqrtFn : ℚ → ℚ) (s : ℚ), RmsPolicy.getResult sqrtFn s 0 = 0) ∧
    (∀ s : ℚ, MeanAbsoluteValuePolicy.getResult s 0 = 0) ∧
    (∀ s : ℚ × ℚ, VariancePolicy.getResult s 0 = 0) ∧
    (∀ (sqrtFn : ℚ → ℚ) (s ss ε v : ℚ), ZScorePolicy.getResult sqrtFn s ss ε v 0 = 0) ∧
    (∀ (s : ℚ) (n : Nat), SumPolicy.getResult s n = s) ∧
    (∀ (c n : Nat), CounterPolicy.getResult c n = (c : ℚ)) ∧
    SumPolicy.getResult 0 0 = 0 ∧ CounterPolicy.getResult 0 0 = 0 := by
  refine ⟨fun s => rfl, fun _ s => rfl, fun s => rfl, fun s => rfl, fun _ _ _ _ _ => rfl,
    fun _ _ => rfl, fun _ _ => rfl, rfl, ?_⟩
  show ((0 : Nat) : ℚ) = 0
  norm_num

/-- Channel-restore loop: if any stored channel's `runningSum` differs from
the sum recomputed from its buffer snapshot by more than
`0.0001 * max(1, |sum|)`, the whole restore fails with the state-corruption
error. -/
theorem MovingAverageStage.restoreChannels_error (ws : Nat)
    (channels : List MAChannelState) (ch : MAChannelState) (hch : ch ∈ channels)
    (hbad : |ch.runningSum - ch.buffer.sum| > 1 / 10000 * max 1 |ch.buffer.sum|) :
    MovingAverageStage.restoreChannels ws channels
      = .error DeserializeError.stateCorruption := by
  induction channels with
  | nil => cases hch
  | cons c rest ih =>
    rcases List.mem_cons.mp hch with hceq | hmem
    · subst hceq
      simp only [MovingAverageStage.restoreChannels, MovingAverageStage.restoreChannel]
      rw [if_pos hbad]
    · simp only [MovingAverageStage.restoreChannels]
      cases hr : MovingAverageStage.restoreChannel ws c with
      | error e =>
        have he : e = DeserializeError.stateCorruption := by
          unfold MovingAverageStage.restoreChannel at hr
          by_cases hc2 : |c.runningSum - c.buffer.sum| > 1 / 10000 * max 1 |c.buffer.sum|
          · rw [if_pos hc2] at hr
            exact (Except.error.injEq _ _ ▸ hr).symm ▸ rfl
          · rw [if_neg hc2] at hr
            cases hr
        rw [he]
      | ok fdata =>
        rw [ih hmem]

/-- C3 counterexample: take a Moving stage whose single channel holds `[10]`
(so `serializeState` emits `runningSum = 10`), and mutate the serialized
`runningSum` to `10 + 1/2000` without touching `buffer`.  The recomputed sum
is 10 and the tolerance is `0.0001 * max(1,10) = 1/1000 > 1/2000`, so
`deserializeState` ACCEPTS the mutated state: it silently succeeds, refuting
"fails ... and never silently succeeds" for sub-tolerance mutations. -/
theorem claim_C3_counterexample :
    MovingAverageStage.serializeState
        ⟨AverageMode.Moving, 1,
          [SlidingWindowFilter.addSampleState MeanPolicy.onAdd MeanPolicy.onRemove
            (MovingAverageFilter.mkFilter 1) 10]⟩
      = ⟨AverageMode.Moving, 1, [⟨[10], 10⟩]⟩ ∧
    (10 + 1 / 2000 : ℚ) ≠ 10 ∧
    exceptIsOk (MovingAverageStage.deserializeState
        ⟨AverageMode.Moving, 1,
          [SlidingWindowFilter.addSampleState MeanPolicy.onAdd MeanPolicy.onRemove
            (MovingAverageFilter.mkFilter 1) 10]⟩
        ⟨AverageMode.Moving, 1, [⟨[10], 10 + 1 / 2000⟩]⟩) = true := by
  refine ⟨?_, by norm_num, ?_⟩
  · simp only [MovingAverageStage.serializeState, SlidingWindowFilter.addSampleState,
      MovingAverageFilter.mkFilter, CircularBufferArray.mkBuf,
      CircularBufferArray.pushOverwrite, CircularBufferArray.isFull,
      CircularBufferArray.peek, CircularBufferArray.toVector, MeanPolicy.onAdd,
      List.map_cons, List.map_nil]
    norm_num [List.range_succ]
  · simp only [MovingAverageStage.deserializeState, MovingAverageStage.restoreChannels,
      MovingAverageStage.restoreChannel, MovingAverageFilter.mkFilter]
    norm_num [exceptIsOk, abs_of_nonneg]

/-- C3 (amended): for a Moving-mode stage and a saved state with matching mode
and window size, if any channel's stored `runningSum` differs from the sum
recomputed from that channel's buffer snapshot by MORE than
`0.0001 * max(1, |recomputed|)`, `deserializeState` fails with the
state-corruption error (and a mutation within that tolerance is silently
accepted, as the counterexample shows). -/
theorem claim_C3_corruption_rejected (s : MovingAverageStage) (st : MAStageState)
    (hmode : st.mode = s.m_mode) (hmoving : s.m_mode = AverageMode.Moving)
    (hws : st.windowSize = s.m_window_size)
    (ch : MAChannelState) (hch : ch ∈ st.channels)
    (hbad : |ch.runningSum - ch.buffer.sum| > 1 / 10000 * max 1 |ch.buffer.sum|) :
    s.deserializeState st = .error DeserializeError.stateCorruption := by
  unfold MovingAverageStage.deserializeState
  rw [if_neg (by rw [hmode]; exact fun h => h rfl)]
  rw [hmoving]
  rw [if_neg (by rw [hws]; exact fun h => h rfl)]
  rw [MovingAverageStage.restoreChannels_error s.m_window_size st.channels ch hch hbad]

/-- Witness for the amended C3: a stored channel `{buffer: [10], runningSum:
11}` is off by 1 > 1/1000 and is rejected with the state-corruption error. -/
theorem claim_C3_corruption_rejected_witness :
    ((⟨AverageMode.Moving, 1, [⟨[10], 11⟩]⟩ : MAStageState).mode
        = (⟨AverageMode.Moving, 1, []⟩ : MovingAverageStage).m_mode ∧
      (⟨[10], 11⟩ : MAChannelState) ∈ (⟨AverageMode.Moving, 1, [⟨[10], 11⟩]⟩ : MAStageState).channels ∧
      |(11 : ℚ) - ([10] : List ℚ).sum| > 1 / 10000 * max 1 |([10] : List ℚ).sum|) ∧
    MovingAverageStage.deserializeState ⟨AverageMode.Moving, 1, []⟩
        ⟨AverageMode.Moving, 1, [⟨[10], 11⟩]⟩
      = .error DeserializeError.stateCorruption :=
  ⟨⟨rfl, by simp, by norm_num⟩,
    claim_C3_corruption_rejected ⟨AverageMode.Moving, 1, []⟩
      ⟨AverageMode.Moving, 1, [⟨[10], 11⟩]⟩ rfl rfl rfl ⟨[10], 11⟩ (by simp) (by norm_num)⟩

/-- The strided sum equals the sum over all indices congruent to `c`. -/
theorem channelSumFrom_eq_sum_range (C c : Nat) :
    ∀ (l : List ℚ) (i : Nat),
      channelSumFrom C c i l
        = ∑ j in Finset.range l.length, if (i + j) % C = c then l.getD j 0 else 0 := by
  intro l
  induction l with
  | nil => intro i; simp [channelSumFrom]
  | cons v rest ih =>
    intro i
    rw [channelSumFrom, List.length_cons, Finset.sum_range_succ']
    have h2 : ∀ j ∈ Finset.range rest.length,
        (if (i + (j + 1)) % C = c then (v :: rest).getD (j + 1) 0 else 0)
          = (if ((i + 1) + j) % C = c then rest.getD j 0 else 0) := by
      intro j _
      have h3 : i + (j + 1) = (i + 1) + j := by omega
      rw [h3, List.getD_cons_succ]
    rw [Finset.sum_congr rfl h2, ← ih (i + 1)]
    simp only [Nat.add_zero, List.getD_cons_zero]
    ring

/-- The channel sum starting at index 0 is the sum of the buffer values at the
indices congruent to `c` modulo the channel count. -/
theorem channelSumFrom_eq_filter_sum (C c : Nat) (l : List ℚ) :
    channelSumFrom C c 0 l
      = ∑ j in (Finset.range l.length).filter (fun j => j % C = c), l.getD j 0 := by
  rw [channelSumFrom_eq_sum_range, Finset.sum_filter]
  refine Finset.sum_congr rfl fun j _ => ?_
  rw [Nat.zero_add]

/-- Number of indices `j < n` with `j % C = c`: `n / C`, plus one more when
`c < n % C` (so `n / C + 1 = ⌈n / C⌉` of them for the channels that receive
the extra sample of a ragged buffer). -/
theorem card_filter_mod_eq (C c : Nat) (hc : c < C) :
    ∀ n, ((Finset.range n).filter (fun j => j % C = c)).card
      = n / C + (if c < n % C then 1 else 0) := by
  intro n
  induction n with
  | zero => simp
  | succ n ih =>
    rw [Finset.range_succ, Finset.filter_insert]
    have hC : 0 < C := by omega
    have hmod := Nat.mod_lt n hC
    rcases Nat.lt_or_ge (n % C + 1) C with hlt | hge
    · have hdiv : (n + 1) / C = n / C := by
        conv_lhs => rw [← Nat.div_add_mod n C]
        rw [Nat.add_assoc, Nat.mul_add_div hC, Nat.div_eq_of_lt hlt, Nat.add_zero]
      have hmod2 : (n + 1) % C = n % C + 1 := by
        conv_lhs => rw [← Nat.div_add_mod n C]
        rw [Nat.add_assoc, Nat.mul_add_mod, Nat.mod_eq_of_lt hlt]
      by_cases he : n % C = c
      · rw [if_pos he, Finset.card_insert_of_not_mem (by simp), ih, hdiv, hmod2]
        rw [if_neg (by omega), if_pos (by omega)]
      · rw [if_neg he, ih, hdiv, hmod2]
        congr 1
        by_cases hc2 : c < n % C
        · rw [if_pos hc2, if_pos (by omega)]
        · rw [if_neg hc2, if_neg (by omega)]
    · have hmodC : n % C = C - 1 := by omega
      have hdiv : (n + 1) / C = n / C + 1 := by
        conv_lhs => rw [← Nat.div_add_mod n C]
        rw [Nat.add_assoc, Nat.mul_add_div hC, hmodC]
        rw [Nat.sub_add_cancel (by omega), Nat.div_self hC]
      have hmod2 : (n + 1) % C = 0 := by
        conv_lhs => rw [← Nat.div_add_mod n C]
        rw [Nat.add_assoc, Nat.mul_add_mod, hmodC, Nat.sub_add_cancel (by omega), Nat.mod_self]
      by_cases he : n % C = c
      · rw [if_pos he, Finset.card_insert_of_not_mem (by simp), ih, hdiv, hmod2]
        rw [if_neg (by omega), if_neg (by omega)]
      · rw [if_neg he, ih, hdiv, hmod2]
        rw [if_pos (by omega), if_neg (by omega)]

theorem length_overwriteChannelFrom (C c : Nat) (a : ℚ) :
    ∀ (l : List ℚ) (i : Nat), (overwriteChannelFrom C c a i l).length = l.length := by
  intro l
  induction l with
  | nil => intro i; rfl
  | cons v rest ih =>
    intro i
    rw [overwriteChannelFrom, List.length_cons, List.length_cons, ih]

theorem getD_overwriteChannelFrom (C c : Nat) (a : ℚ) :
    ∀ (l : List ℚ) (i j : Nat), j < l.length →
      (overwriteChannelFrom C c a i l).getD j 0
        = if (i + j) % C = c then a else l.getD j 0 := by
  intro l
  induction l with
  | nil => intro i j h; cases h
  | cons v rest ih =>
    intro i j hj
    cases j with
    | zero =>
      rw [overwriteChannelFrom, List.getD_cons_zero, List.getD_cons_zero, Nat.add_zero]
    | succ j =>
      rw [overwriteChannelFrom, List.getD_cons_succ, List.getD_cons_succ]
      rw [ih (i + 1) j (by simpa using hj)]
      have h3 : (i + 1) + j = i + (j + 1) := by omega
      rw [h3]

theorem channelSumFrom_congr (C c : Nat) :
    ∀ (l₁ l₂ : List ℚ) (i : Nat), l₁.length = l₂.length →
      (∀ j, j < l₁.length → (i + j) % C = c → l₁.getD j 0 = l₂.getD j 0) →
      channelSumFrom C c i l₁ = channelSumFrom C c i l₂ := by
  intro l₁
  induction l₁ with
  | nil =>
    intro l₂ i hlen _
    cases l₂ with
    | nil => rfl
    | cons w r => cases hlen
  | cons v rest ih =>
    intro l₂ i hlen hag
    cases l₂ with
    | nil => cases hlen
    | cons w rest₂ =>
      rw [channelSumFrom, channelSumFrom]
      have hheads : (if i % C = c then v else 0) = (if i % C = c then w else 0) := by
        by_cases hi : i % C = c
        · rw [if_pos hi, if_pos hi]
          have := hag 0 (by simp) (by simpa using hi)
          simpa using this
        · rw [if_neg hi, if_neg hi]
      rw [hheads, ih rest₂ (i + 1) (by simpa using hlen) ?_]
      intro j hjl hjc
      have := hag (j + 1) (by simpa using Nat.succ_lt_succ hjl)
        (by rw [show i + (j + 1) = (i + 1) + j from by omega]; exact hjc)
      simpa using this

/-- Effect of one channel pass of `processBatch`, as an invariant step: after
processing channels `0..k-1`, positions in those channels hold the channel
average and all others still hold the original values. -/
theorem processChannel_char (buf : List ℚ) (C : Nat) (k : Nat) (b : List ℚ)
    (hlen : b.length = buf.length)
    (hchar : ∀ j, j < buf.length →
      b.getD j 0 = if j % C < k ∧ 0 < buf.length / C
        then channelSumFrom C (j % C) 0 buf / ((buf.length / C : Nat) : ℚ)
        else buf.getD j 0) :
    (MovingAverageStage.processChannel b C k).length = buf.length ∧
    ∀ j, j < buf.length →
      (MovingAverageStage.processChannel b C k).getD j 0
        = if j % C < k + 1 ∧ 0 < buf.length / C
          then channelSumFrom C (j % C) 0 buf / ((buf.length / C : Nat) : ℚ)
          else buf.getD j 0 := by
  unfold MovingAverageStage.processChannel
  rw [hlen]
  by_cases hq : buf.length / C = 0
  · rw [if_pos hq]
    refine ⟨hlen, fun j hj => ?_⟩
    rw [hchar j hj, if_neg (by simp [hq]), if_neg (by simp [hq])]
  · rw [if_neg hq]
    have hsum : channelSumFrom C k 0 b = channelSumFrom C k 0 buf := by
      apply channelSumFrom_congr C k b buf 0 hlen
      intro j2 hj2 hc2
      rw [Nat.zero_add] at hc2
      rw [hchar j2 (hlen ▸ hj2), if_neg (by omega)]
    refine ⟨by rw [length_overwriteChannelFrom, hlen], fun j hj => ?_⟩
    rw [getD_overwriteChannelFrom C k _ b 0 j (by omega), Nat.zero_add, hsum]
    have hq2 : 0 < buf.length / C := Nat.pos_of_ne_zero hq
    by_cases hjk : j % C = k
    · rw [if_pos hjk, if_pos ⟨by omega, hq2⟩, hjk]
    · rw [if_neg hjk, hchar j hj]
      by_cases hjlt : j % C < k
      · rw [if_pos ⟨hjlt, hq2⟩, if_pos ⟨by omega, hq2⟩]
      · rw [if_neg (fun h => hjlt h.1), if_neg (fun h => absurd h.1 (by omega))]

/-- Characterization of `processBatch`: when `numSamplesPerChannel =
n / C` is 0 the buffer is untouched; otherwise every position is overwritten
with its channel's strided sum divided by `n / C`. -/
theorem processBatch_char (buf : List ℚ) (C : Nat) (hC : 0 < C) :
    (MovingAverageStage.processBatch buf C).length = buf.length ∧
    ∀ j, j < buf.length →
      (MovingAverageStage.processBatch buf C).getD j 0
        = if 0 < buf.length / C
          then channelSumFrom C (j % C) 0 buf / ((buf.length / C : Nat) : ℚ)
          else buf.getD j 0 := by
  have main : ∀ k,
      ((List.range k).foldl (fun b c => MovingAverageStage.processChannel b C c) buf).length
        = buf.length ∧
      ∀ j, j < buf.length →
        ((List.range k).foldl (fun b c => MovingAverageStage.processChannel b C c)
          buf).getD j 0
          = if j % C < k ∧ 0 < buf.length / C
            then channelSumFrom C (j % C) 0 buf / ((buf.length / C : Nat) : ℚ)
            else buf.getD j 0 := by
    intro k
    induction k with
    | zero =>
      refine ⟨rfl, fun j hj => ?_⟩
      rw [if_neg (by omega)]
      rfl
    | succ k ih =>
      rw [List.range_succ, List.foldl_append, List.foldl_cons, List.foldl_nil]
      exact processChannel_char buf C k _ ih.1 ih.2
  obtain ⟨h1, h2⟩ := main C
  unfold MovingAverageStage.processBatch
  refine ⟨h1, fun j hj => ?_⟩
  rw [h2 j hj]
  have hjc : j % C < C := Nat.mod_lt j hC
  by_cases hq : 0 < buf.length / C
  · rw [if_pos ⟨hjc, hq⟩, if_pos hq]
  · rw [if_neg (by tauto), if_neg hq]

/-- C9: a Batch-mode movingAverage stage over a buffer whose sample count `n`
is not a multiple of the channel count `C` raises no error (`processBatch` is
total): when `n / C = 0` every channel is skipped and the buffer is
untouched; otherwise every sample of a channel `c = j % C` with `c < n % C`
is overwritten with the sum of that channel's `n / C + 1 = ⌈n/C⌉` samples
divided by `n / C` (the integer `numSamplesPerChannel`). -/
theorem claim_C9_ragged_batch (buf : List ℚ) (C : Nat) (hC : 0 < C)
    (hndvd : ¬ C ∣ buf.length) :
    (buf.length / C = 0 → MovingAverageStage.processBatch buf C = buf) ∧
    (0 < buf.length / C → ∀ j, j < buf.length → j % C < buf.length % C →
      (MovingAverageStage.processBatch buf C).getD j 0
        = (∑ k in (Finset.range buf.length).filter (fun k => k % C = j % C), buf.getD k 0)
            / ((buf.length / C : Nat) : ℚ) ∧
      ((Finset.range buf.length).filter (fun k => k % C = j % C)).card
        = buf.length / C + 1) := by
  obtain ⟨hlen, hchar⟩ := processBatch_char buf C hC
  constructor
  · intro hq
    apply List.ext_getElem hlen
    intro i h1 h2
    have h3 := hchar i h2
    rw [if_neg (by rw [hq]; exact lt_irrefl 0)] at h3
    rw [← List.getD_eq_getElem _ 0 h1, ← List.getD_eq_getElem _ 0 h2, h3]
  · intro hq j hj hjragged
    have h3 := hchar j hj
    rw [if_pos hq, channelSumFrom_eq_filter_sum] at h3
    refine ⟨h3, ?_⟩
    rw [card_filter_mod_eq C (j % C) (Nat.mod_lt j hC) buf.length, if_pos hjragged]

/-- Witness for C9: buffer `[1,2,3]` with 2 channels (3 not a multiple of 2);
channel 0 (< 3 % 2 = 1) has 2 = 3/2 + 1 samples and position 0 receives their
sum divided by 3/2 = 1. -/
theorem claim_C9_ragged_batch_witness :
    (0 < 2 ∧ ¬ (2 ∣ ([1, 2, 3] : List ℚ).length) ∧ 0 < ([1, 2, 3] : List ℚ).length / 2
      ∧ 0 < ([1, 2, 3] : List ℚ).length ∧ 0 % 2 < ([1, 2, 3] : List ℚ).length % 2) ∧
    ((MovingAverageStage.processBatch [1, 2, 3] 2).getD 0 0
        = (∑ k in (Finset.range ([1, 2, 3] : List ℚ).length).filter (fun k => k % 2 = 0 % 2),
            ([1, 2, 3] : List ℚ).getD k 0) / ((([1, 2, 3] : List ℚ).length / 2 : Nat) : ℚ) ∧
      ((Finset.range ([1, 2, 3] : List ℚ).length).filter (fun k => k % 2 = 0 % 2)).card
        = ([1, 2, 3] : List ℚ).length / 2 + 1) :=
  ⟨⟨by decide, by decide, by decide, by decide, by decide⟩,
    (claim_C9_ragged_batch [1, 2, 3] 2 (by decide) (by decide)).2 (by decide) 0 (by decide)
      (by decide)⟩

/-! ## C4: derived-filter state round trips -/

theorem wampFilter_simEq_addSample {f g : WampFilter} (h : f.SimEq g) (v : ℚ) :
    (f.addSample v).1 = (g.addSample v).1 ∧ (f.addSample v).2.SimEq (g.addSample v).2 := by
  obtain ⟨ht, hp, hi, hsim⟩ := h
  have hde : (f.m_is_initialized && decide (|v - f.m_previous_sample| > f.m_threshold))
      = (g.m_is_initialized && decide (|v - g.m_previous_sample| > g.m_threshold)) := by
    rw [ht, hp, hi]
  have heng := SlidingWindowFilter.SimEq.addSampleState CounterPolicy.onAdd
    CounterPolicy.onRemove hsim
    (f.m_is_initialized && decide (|v - f.m_previous_sample| > f.m_threshold))
  constructor
  · show CounterPolicy.getResult
        (SlidingWindowFilter.addSampleState CounterPolicy.onAdd CounterPolicy.onRemove
          f.m_filter (f.m_is_initialized && decide (|v - f.m_previous_sample| > f.m_threshold))).m_policy
        (SlidingWindowFilter.addSampleState CounterPolicy.onAdd CounterPolicy.onRemove
          f.m_filter (f.m_is_initialized && decide (|v - f.m_previous_sample| > f.m_threshold))).m_buffer.getCount
      = CounterPolicy.getResult
        (SlidingWindowFilter.addSampleState CounterPolicy.onAdd CounterPolicy.onRemove
          g.m_filter (g.m_is_initialized && decide (|v - g.m_previous_sample| > g.m_threshold))).m_policy
        (SlidingWindowFilter.addSampleState CounterPolicy.onAdd CounterPolicy.onRemove
          g.m_filter (g.m_is_initialized && decide (|v - g.m_previous_sample| > g.m_threshold))).m_buffer.getCount
    rw [← hde]
    unfold CounterPolicy.getResult
    rw [heng.2.2.2.2]
  · show WampFilter.SimEq
      { m_filter := SlidingWindowFilter.addSampleState CounterPolicy.onAdd CounterPolicy.onRemove
          f.m_filter (f.m_is_initialized && decide (|v - f.m_previous_sample| > f.m_threshold))
        m_threshold := f.m_threshold
        m_previous_sample := v
        m_is_initialized := true }
      { m_filter := SlidingWindowFilter.addSampleState CounterPolicy.onAdd CounterPolicy.onRemove
          g.m_filter (g.m_is_initialized && decide (|v - g.m_previous_sample| > g.m_threshold))
        m_threshold := g.m_threshold
        m_previous_sample := v
        m_is_initialized := true }
    refine ⟨ht, rfl, rfl, ?_⟩
    show (SlidingWindowFilter.addSampleState CounterPolicy.onAdd CounterPolicy.onRemove
        f.m_filter (f.m_is_initialized && decide (|v - f.m_previous_sample| > f.m_threshold))).SimEq
      (SlidingWindowFilter.addSampleState CounterPolicy.onAdd CounterPolicy.onRemove
        g.m_filter (g.m_is_initialized && decide (|v - g.m_previous_sample| > g.m_threshold)))
    rw [← hde]
    exact heng

theorem wampFilter_simEq_run {f g : WampFilter} (h : f.SimEq g) :
    ∀ l : List ℚ, (f.run l).1 = (g.run l).1 := by
  intro l
  induction l generalizing f g with
  | nil => rfl
  | cons v rest ih =>
    obtain ⟨h1, h2⟩ := wampFilter_simEq_addSample h v
    show (f.addSample v).1 :: ((f.addSample v).2.run rest).1
        = (g.addSample v).1 :: ((g.addSample v).2.run rest).1
    rw [h1, ih h2]

theorem wampFilter_setState_getState_simEq (ws : Nat) (t : ℚ) (f : WampFilter)
    (hb : f.m_filter.m_buffer.BufInv)
    (hcap : f.m_filter.m_buffer.capacity = max ws 1)
    (hinit : f.m_is_initialized = true) (ht : f.m_threshold = t) :
    ((WampFilter.mkFilter ws t).setState f.getState.1.1 f.getState.1.2
      f.getState.2).SimEq f := by
  obtain ⟨hfv1, hfv2, hfv3⟩ := CircularBufferArray.fromVector_spec
    (CircularBufferArray.mkBuf ws false) (CircularBufferArray.bufInv_mkBuf ws false)
    f.m_filter.m_buffer.toVector
  refine ⟨ht.symm, rfl, hinit.symm, hfv1, hb, ?_, ?_, rfl⟩
  · show ((CircularBufferArray.mkBuf ws false).fromVector
        f.m_filter.m_buffer.toVector).capacity = f.m_filter.m_buffer.capacity
    rw [hfv2, hcap]
    rfl
  · show ((CircularBufferArray.mkBuf ws false).fromVector f.m_filter.m_buffer.toVector).toVector
      = f.m_filter.m_buffer.toVector
    rw [hfv3]
    apply listLastN_of_le
    rw [CircularBufferArray.length_toVector]
    have h2 := hb.2.1
    rw [hcap] at h2
    exact h2

theorem waveformLengthFilter_simEq_addSample {f g : WaveformLengthFilter}
    (h : f.SimEq g) (v : ℚ) :
    (f.addSample v).1 = (g.addSample v).1 ∧ (f.addSample v).2.SimEq (g.addSample v).2 := by
  obtain ⟨hp, hi, hsim⟩ := h
  have hde : (if f.m_is_initialized then |v - f.m_previous_sample| else 0)
      = (if g.m_is_initialized then |v - g.m_previous_sample| else 0) := by
    rw [hp, hi]
  have heng := SlidingWindowFilter.SimEq.addSampleState SumPolicy.onAdd
    SumPolicy.onRemove hsim (if f.m_is_initialized then |v - f.m_previous_sample| else 0)
  constructor
  · show SumPolicy.getResult
        (SlidingWindowFilter.addSampleState SumPolicy.onAdd SumPolicy.onRemove
          f.m_filter (if f.m_is_initialized then |v - f.m_previous_sample| else 0)).m_policy
        (SlidingWindowFilter.addSampleState SumPolicy.onAdd SumPolicy.onRemove
          f.m_filter (if f.m_is_initialized then |v - f.m_previous_sample| else 0)).m_buffer.getCount
      = SumPolicy.getResult
        (SlidingWindowFilter.addSampleState SumPolicy.onAdd SumPolicy.onRemove
          g.m_filter (if g.m_is_initialized then |v - g.m_previous_sample| else 0)).m_policy
        (SlidingWindowFilter.addSampleState SumPolicy.onAdd SumPolicy.onRemove
          g.m_filter (if g.m_is_initialized then |v - g.m_previous_sample| else 0)).m_buffer.getCount
    rw [← hde]
    unfold SumPolicy.getResult
    rw [heng.2.2.2.2]
  · show WaveformLengthFilter.SimEq
      { m_filter := SlidingWindowFilter.addSampleState SumPolicy.onAdd SumPolicy.onRemove
          f.m_filter (if f.m_is_initialized then |v - f.m_previous_sample| else 0)
        m_previous_sample := v
        m_is_initialized := true }
      { m_filter := SlidingWindowFilter.addSampleState SumPolicy.onAdd SumPolicy.onRemove
          g.m_filter (if g.m_is_initialized then |v - g.m_previous_sample| else 0)
        m_previous_sample := v
        m_is_initialized := true }
    refine ⟨rfl, rfl, ?_⟩
    show (SlidingWindowFilter.addSampleState SumPolicy.onAdd SumPolicy.onRemove
        f.m_filter (if f.m_is_initialized then |v - f.m_previous_sample| else 0)).SimEq
      (SlidingWindowFilter.addSampleState SumPolicy.onAdd SumPolicy.onRemove
        g.m_filter (if g.m_is_initialized then |v - g.m_previous_sample| else 0))
    rw [← hde]
    exact heng

theorem waveformLengthFilter_simEq_run {f g : WaveformLengthFilter} (h : f.SimEq g) :
    ∀ l : List ℚ, (f.run l).1 = (g.run l).1 := by
  intro l
  induction l generalizing f g with
  | nil => rfl
  | cons v rest ih =>
    obtain ⟨h1, h2⟩ := waveformLengthFilter_simEq_addSample h v
    show (f.addSample v).1 :: ((f.addSample v).2.run rest).1
        = (g.addSample v).1 :: ((g.addSample v).2.run rest).1
    rw [h1, ih h2]

theorem waveformLengthFilter_setState_getState_simEq (ws : Nat) (f : WaveformLengthFilter)
    (hb : f.m_filter.m_buffer.BufInv)
    (hcap : f.m_filter.m_buffer.capacity = max ws 1)
    (hinit : f.m_is_initialized = true) :
    ((WaveformLengthFilter.mkFilter ws).setState f.getState.1.1 f.getState.1.2
      f.getState.2).SimEq f := by
  obtain ⟨hfv1, hfv2, hfv3⟩ := CircularBufferArray.fromVector_spec
    (CircularBufferArray.mkBuf ws (0 : ℚ)) (CircularBufferArray.bufInv_mkBuf ws 0)
    f.m_filter.m_buffer.toVector
  refine ⟨rfl, hinit.symm, hfv1, hb, ?_, ?_, rfl⟩
  · show ((CircularBufferArray.mkBuf ws (0 : ℚ)).fromVector
        f.m_filter.m_buffer.toVector).capacity = f.m_filter.m_buffer.capacity
    rw [hfv2, hcap]
    rfl
  · show ((CircularBufferArray.mkBuf ws (0 : ℚ)).fromVector
        f.m_filter.m_buffer.toVector).toVector = f.m_filter.m_buffer.toVector
    rw [hfv3]
    apply listLastN_of_le
    rw [CircularBufferArray.length_toVector]
    have h2 := hb.2.1
    rw [hcap] at h2
    exact h2

theorem sscFilter_simEq_addSample {f g : SscFilter} (h : f.SimEq g) (v : ℚ) :
    (f.addSample v).1 = (g.addSample v).1 ∧ (f.addSample v).2.SimEq (g.addSample v).2 := by
  obtain ⟨ht, h1, h2, hic, hsim⟩ := h
  have hde : (if 2 ≤ f.m_init_count then
        decide ((f.m_sample_minus_1 - f.m_sample_minus_2) * (f.m_sample_minus_1 - v)
          > f.m_threshold)
      else false)
      = (if 2 ≤ g.m_init_count then
        decide ((g.m_sample_minus_1 - g.m_sample_minus_2) * (g.m_sample_minus_1 - v)
          > g.m_threshold)
      else false) := by
    rw [ht, h1, h2, hic]
  have heng := SlidingWindowFilter.SimEq.addSampleState CounterPolicy.onAdd
    CounterPolicy.onRemove hsim
    (if 2 ≤ f.m_init_count then
      decide ((f.m_sample_minus_1 - f.m_sample_minus_2) * (f.m_sample_minus_1 - v)
        > f.m_threshold)
    else false)
  constructor
  · show CounterPolicy.getResult
        (SlidingWindowFilter.addSampleState CounterPolicy.onAdd CounterPolicy.onRemove
          f.m_filter (if 2 ≤ f.m_init_count then
            decide ((f.m_sample_minus_1 - f.m_sample_minus_2) * (f.m_sample_minus_1 - v)
              > f.m_threshold)
          else false)).m_policy
        (SlidingWindowFilter.addSampleState CounterPolicy.onAdd CounterPolicy.onRemove
          f.m_filter (if 2 ≤ f.m_init_count then
            decide ((f.m_sample_minus_1 - f.m_sample_minus_2) * (f.m_sample_minus_1 - v)
              > f.m_threshold)
          else false)).m_buffer.getCount
      = CounterPolicy.getResult
        (SlidingWindowFilter.addSampleState CounterPolicy.onAdd CounterPolicy.onRemove
          g.m_filter (if 2 ≤ g.m_init_count then
            decide ((g.m_sample_minus_1 - g.m_sample_minus_2) * (g.m_sample_minus_1 - v)
              > g.m_threshold)
          else false)).m_policy
        (SlidingWindowFilter.addSampleState CounterPolicy.onAdd CounterPolicy.onRemove
          g.m_filter (if 2 ≤ g.m_init_count then
            decide ((g.m_sample_minus_1 - g.m_sample_minus_2) * (g.m_sample_minus_1 - v)
              > g.m_threshold)
          else false)).m_buffer.getCount
    rw [← hde]
    unfold CounterPolicy.getResult
    rw [heng.2.2.2.2]
  · show SscFilter.SimEq
      { m_filter := SlidingWindowFilter.addSampleState CounterPolicy.onAdd CounterPolicy.onRemove
          f.m_filter (if 2 ≤ f.m_init_count then
            decide ((f.m_sample_minus_1 - f.m_sample_minus_2) * (f.m_sample_minus_1 - v)
              > f.m_threshold)
          else false)
        m_threshold := f.m_threshold
        m_sample_minus_1 := v
        m_sample_minus_2 := if f.m_init_count = 1 then v else f.m_sample_minus_1
        m_init_count := if 2 ≤ f.m_init_count then f.m_init_count else f.m_init_count + 1 }
      { m_filter := SlidingWindowFilter.addSampleState CounterPolicy.onAdd CounterPolicy.onRemove
          g.m_filter (if 2 ≤ g.m_init_count then
            decide ((g.m_sample_minus_1 - g.m_sample_minus_2) * (g.m_sample_minus_1 - v)
              > g.m_threshold)
          else false)
        m_threshold := g.m_threshold
        m_sample_minus_1 := v
        m_sample_minus_2 := if g.m_init_count = 1 then v else g.m_sample_minus_1
        m_init_count := if 2 ≤ g.m_init_count then g.m_init_count else g.m_init_count + 1 }
    refine ⟨ht, rfl, by rw [h1, hic], by rw [hic], ?_⟩
    show (SlidingWindowFilter.addSampleState CounterPolicy.onAdd CounterPolicy.onRemove
        f.m_filter (if 2 ≤ f.m_init_count then
          decide ((f.m_sample_minus_1 - f.m_sample_minus_2) * (f.m_sample_minus_1 - v)
            > f.m_threshold)
        else false)).SimEq
      (SlidingWindowFilter.addSampleState CounterPolicy.onAdd CounterPolicy.onRemove
        g.m_filter (if 2 ≤ g.m_init_count then
          decide ((g.m_sample_minus_1 - g.m_sample_minus_2) * (g.m_sample_minus_1 - v)
            > g.m_threshold)
        else false))
    rw [← hde]
    exact heng

theorem sscFilter_simEq_run {f g : SscFilter} (h : f.SimEq g) :
    ∀ l : List ℚ, (f.run l).1 = (g.run l).1 := by
  intro l
  induction l generalizing f g with
  | nil => rfl
  | cons v rest ih =>
    obtain ⟨h1, h2⟩ := sscFilter_simEq_addSample h v
    show (f.addSample v).1 :: ((f.addSample v).2.run rest).1
        = (g.addSample v).1 :: ((g.addSample v).2.run rest).1
    rw [h1, ih h2]

theorem sscFilter_setState_getState_simEq (ws : Nat) (t : ℚ) (f : SscFilter)
    (hb : f.m_filter.m_buffer.BufInv)
    (hcap : f.m_filter.m_buffer.capacity = max ws 1)
    (ht : f.m_threshold = t) :
    ((SscFilter.mkFilter ws t).setState f.getState.1.1 f.getState.1.2
      f.getState.2).SimEq f := by
  obtain ⟨hfv1, hfv2, hfv3⟩ := CircularBufferArray.fromVector_spec
    (CircularBufferArray.mkBuf ws false) (CircularBufferArray.bufInv_mkBuf ws false)
    f.m_filter.m_buffer.toVector
  refine ⟨ht.symm, rfl, rfl, rfl, hfv1, hb, ?_, ?_, rfl⟩
  · show ((CircularBufferArray.mkBuf ws false).fromVector
        f.m_filter.m_buffer.toVector).capacity = f.m_filter.m_buffer.capacity
    rw [hfv2, hcap]
    rfl
  · show ((CircularBufferArray.mkBuf ws false).fromVector
        f.m_filter.m_buffer.toVector).toVector = f.m_filter.m_buffer.toVector
    rw [hfv3]
    apply listLastN_of_le
    rw [CircularBufferArray.length_toVector]
    have h2 := hb.2.1
    rw [hcap] at h2
    exact h2

/-- C4 counterexample: capture a fresh WAMP filter's state (window 4,
threshold 1) BEFORE it has seen any sample, restore it into a fresh filter of
the same configuration, and feed the single sample 5.  The original returns 0
(`did_exceed` is false while uninitialized); the restored filter was marked
initialized with lookback 0 by `setState` (the exported state has no
initialization flag), computes `|5 - 0| > 1` and returns 1. -/
theorem claim_C4_counterexample :
    (WampFilter.run ((WampFilter.mkFilter 4 1).setState
        (WampFilter.mkFilter 4 1).getState.1.1 (WampFilter.mkFilter 4 1).getState.1.2
        (WampFilter.mkFilter 4 1).getState.2) [5]).1
      ≠ (WampFilter.run (WampFilter.mkFilter 4 1) [5]).1 := by
  have hres : (WampFilter.run ((WampFilter.mkFilter 4 1).setState
      (WampFilter.mkFilter 4 1).getState.1.1 (WampFilter.mkFilter 4 1).getState.1.2
      (WampFilter.mkFilter 4 1).getState.2) [5]).1 = [1] := by
    simp only [WampFilter.run, WampFilter.addSample, WampFilter.setState,
      WampFilter.getState, WampFilter.mkFilter, SlidingWindowFilter.addSampleState,
      SlidingWindowFilter.setState, SlidingWindowFilter.getState,
      CircularBufferArray.mkBuf, CircularBufferArray.fromVector, CircularBufferArray.clear,
      CircularBufferArray.toVector, CircularBufferArray.isFull, CircularBufferArray.peek,
      CircularBufferArray.pushOverwrite, CircularBufferArray.getCount,
      CounterPolicy.onAdd, CounterPolicy.onRemove, CounterPolicy.getResult, Bool.true_and]
    norm_num
  have horig : (WampFilter.run (WampFilter.mkFilter 4 1) [5]).1 = [0] := by
    simp only [WampFilter.run, WampFilter.addSample, WampFilter.mkFilter,
      SlidingWindowFilter.addSampleState, CircularBufferArray.mkBuf,
      CircularBufferArray.isFull, CircularBufferArray.peek,
      CircularBufferArray.pushOverwrite, CircularBufferArray.getCount,
      CounterPolicy.onAdd, CounterPolicy.onRemove, CounterPolicy.getResult, Bool.false_and]
    norm_num
  rw [hres, horig]
  norm_num

/-- C4 (amended): every derived filter's exported state includes its lag
value(s), and SSC's additionally includes its init counter, so restoring into
a fresh filter of the same configuration reproduces all subsequent
`addSample` outputs — for SSC from ANY captured state (including before the
first sample), and for WAMP and Waveform Length from any state captured after
the filter saw its first sample (their exported state has no initialization
flag and `setState` marks the filter initialized, so pre-first-sample
captures can diverge, as the counterexample shows). -/
theorem claim_C4_derived_state_roundtrip :
    (∀ (ws : Nat) (t : ℚ) (f : WampFilter) (inputs : List ℚ),
      f.m_filter.m_buffer.BufInv → f.m_filter.m_buffer.capacity = max ws 1 →
      f.m_is_initialized = true → f.m_threshold = t →
      (((WampFilter.mkFilter ws t).setState f.getState.1.1 f.getState.1.2
        f.getState.2).run inputs).1 = (f.run inputs).1) ∧
    (∀ (ws : Nat) (f : WaveformLengthFilter) (inputs : List ℚ),
      f.m_filter.m_buffer.BufInv → f.m_filter.m_buffer.capacity = max ws 1 →
      f.m_is_initialized = true →
      (((WaveformLengthFilter.mkFilter ws).setState f.getState.1.1 f.getState.1.2
        f.getState.2).run inputs).1 = (f.run inputs).1) ∧
    (∀ (ws : Nat) (t : ℚ) (f : SscFilter) (inputs : List ℚ),
      f.m_filter.m_buffer.BufInv → f.m_filter.m_buffer.capacity = max ws 1 →
      f.m_threshold = t →
      (((SscFilter.mkFilter ws t).setState f.getState.1.1 f.getState.1.2
        f.getState.2).run inputs).1 = (f.run inputs).1) := by
  refine ⟨?_, ?_, ?_⟩
  · intro ws t f inputs hb hcap hinit ht
    exact wampFilter_simEq_run (wampFilter_setState_getState_simEq ws t f hb hcap hinit ht)
      inputs
  · intro ws f inputs hb hcap hinit
    exact waveformLengthFilter_simEq_run
      (waveformLengthFilter_setState_getState_simEq ws f hb hcap hinit) inputs
  · intro ws t f inputs hb hcap ht
    exact sscFilter_simEq_run (sscFilter_setState_getState_simEq ws t f hb hcap ht) inputs

/-- Witness for the amended C4: a WAMP filter (window 4, threshold 1) that has
seen the sample 7; its captured state restored into a fresh filter reproduces
the output on the subsequent input 5. -/
theorem claim_C4_derived_state_roundtrip_witness :
    (((WampFilter.mkFilter 4 1).addSample 7).2.m_filter.m_buffer.BufInv ∧
      ((WampFilter.mkFilter 4 1).addSample 7).2.m_filter.m_buffer.capacity = max 4 1 ∧
      ((WampFilter.mkFilter 4 1).addSample 7).2.m_is_initialized = true ∧
      ((WampFilter.mkFilter 4 1).addSample 7).2.m_threshold = 1) ∧
    (((WampFilter.mkFilter 4 1).setState
        ((WampFilter.mkFilter 4 1).addSample 7).2.getState.1.1
        ((WampFilter.mkFilter 4 1).addSample 7).2.getState.1.2
        ((WampFilter.mkFilter 4 1).addSample 7).2.getState.2).run [5]).1
      = (((WampFilter.mkFilter 4 1).addSample 7).2.run [5]).1 :=
  ⟨⟨by decide, by decide, by decide, by decide⟩,
    claim_C4_derived_state_roundtrip.1 4 1 ((WampFilter.mkFilter 4 1).addSample 7).2 [5]
      (by decide) (by decide) (by decide) (by decide)⟩
